import Mathlib

/-!
Shallow embedding of the Sarathi order-management backend
(routes/orders.js, services/notificationService.js, the Order model with its
pre-save hook, and the legacy orders router), together with proofs about the
fulfillment state machine, the product stock ledger, the order identifier
generator and the notification fan-out policy.

Conventions of the embedding:
  * MongoDB documents become Lean structures; the product collection is a
    total function `Nat → Option Product` (None = no such document).
  * JavaScript numbers that hold quantities/stock are embedded as `Int`
    (mongoose `Number` has no sign restriction and `$inc` can drive a value
    negative); timestamps are `Nat` ticks supplied by the caller.
  * JavaScript truthiness on strings is modelled explicitly: a missing field
    is `none` and the empty string is falsy where the source tests the field
    with `!x` or `x &&`.
  * Authorization middleware and notification/broadcast side effects are
    external collaborators (spec sections 1 and 7) and are not part of the
    embedded state; handlers are embedded from their first domain check on.
-/

namespace Sarathi

/-! ## Product stock ledger (models/Product.js, notificationService.js helpers) -/

/-- A product document (models/Product.js).  `stockQuantity` is `Int` because
the raw `$inc` update used by the dispatch route can in principle drive it
below zero; the schema itself imposes no lower bound. -/
structure Product where
  name : String
  brandName : String
  stockQuantity : Int
  dimension : String
  lowStockThreshold : Int
deriving DecidableEq, Repr

/-- The product collection, keyed by object id (embedded as `Nat`). -/
def ProductDb : Type := Nat → Option Product

/-- Write one product document (`product.save()` / `findByIdAndUpdate`). -/
def setProduct (db : ProductDb) (pid : Nat) (p : Product) : ProductDb :=
  fun q => if q = pid then some p else db q

/-- The stock quantity stored for a product id, if the product exists. -/
def stockAt (db : ProductDb) (pid : Nat) : Option Int :=
  (db pid).map (fun p => p.stockQuantity)

/-- Build a finite product collection from an association list. -/
def dbOf (l : List (Nat × Product)) : ProductDb :=
  fun pid => (l.find? (fun x => x.1 = pid)).map (fun x => x.2)

/-- Every product in the collection has non-negative stock. -/
def allNonneg (db : ProductDb) : Prop :=
  ∀ pid p, db pid = some p → 0 ≤ p.stockQuantity

/-! ## Order items and orders -/

/-- An embedded order item.  `deliveredQty`/`isDelivered` are the
dispatch-time bookkeeping fields written by POST /dispatch and POST /complete
in routes/orders.js (spec section 3, dispatch-time variant). -/
structure OrderItem where
  productId : Nat
  name : String
  brandName : Option String
  dimension : String
  qty : Int
  price : Int
  total : Int
  deliveredQty : Int
  isDelivered : Bool
deriving DecidableEq, Repr

/-- One entry of the append-only `statusHistory` audit log. -/
structure HistEntry where
  status : String
  updatedBy : Option Nat
  updatedAt : Nat
deriving DecidableEq, Repr

/-- An order document: the union of the fields used by the embedded handlers
across the repository's lineages (strict and permissive routers). -/
structure Order where
  orderId : String
  date : Nat
  scheduledFor : Option Nat
  status : String
  orderStatus : String
  customerName : String
  customerPhone : String
  customerAddress : String
  orderRoute : String
  paymentCondition : String
  assignedTo : String
  assignedToId : String
  createdBy : String
  orderItems : List OrderItem
  deliveryPartner : Option String
  statusUpdatedBy : Option Nat
  statusUpdatedAt : Option Nat
  statusHistory : List HistEntry
  isWithout : Bool
  additionalNotes : String
  isPartialDelivery : Bool
  isPartialOrder : Bool
  partialItems : List OrderItem
  originalItemCount : Nat
  fulfilledItemCount : Nat
  dispatchedAt : Option Nat
  cancelledBy : Option String
  cancelledAt : Option Nat
  cancellationReason : Option String
deriving DecidableEq, Repr

/-- The fields of an order item that the partial-delivery bookkeeping never
touches (everything except `deliveredQty` and `isDelivered`). -/
def itemStatic (i : OrderItem) :
    Nat × String × Option String × String × Int × Int × Int :=
  (i.productId, i.name, i.brandName, i.dimension, i.qty, i.price, i.total)

/-- Status history timestamps are in non-decreasing order. -/
def histSorted (l : List HistEntry) : Prop :=
  l.Pairwise (fun a b => a.updatedAt ≤ b.updatedAt)

/-! ## Stock adjustment (notificationService.js `updateProductStock`,
`validateStockAvailability`) -/

/-- Direction of a stock adjustment. -/
inductive StockOp where
  | decrease
  | increase
deriving DecidableEq, Repr

/-- The clamped write of the `updateProductStock` loop:
`max 0 (stockQuantity + change)` where `change` is `-qty` for a decrease and
`qty` for an increase. -/
def adjustedProduct (p : Product) (qty : Int) (op : StockOp) : Product :=
  { p with stockQuantity := max 0 (p.stockQuantity +
      match op with | .decrease => -qty | .increase => qty) }

/-- One iteration of the `updateProductStock` loop: skip items with a falsy
`qty` or a missing product, otherwise write the clamped adjustment and return
the updated document. -/
def updateOneProduct (db : ProductDb) (i : OrderItem) (op : StockOp) :
    ProductDb × Option Product :=
  if i.qty = 0 then (db, none)
  else
    match db i.productId with
    | none => (db, none)
    | some p =>
      (setProduct db i.productId (adjustedProduct p i.qty op), some (adjustedProduct p i.qty op))

/-- notificationService.js `updateProductStock`: run `updateOneProduct` over
the items in loop order; returns the new collection and the list of updated
product documents. -/
def updateProductStock (db : ProductDb) : List OrderItem → StockOp → ProductDb × List Product
  | [], _ => (db, [])
  | i :: rest, op =>
    let step := updateOneProduct db i op
    let res := updateProductStock step.1 rest op
    (res.1, step.2.toList ++ res.2)

/-- A shortfall reported by `validateStockAvailability`.  The source builds
human-readable strings; the embedding keeps the data those strings name. -/
inductive StockShortfall where
  | productNotFound (item : String)
  | insufficient (product : String) (available : Int) (required : Int)
deriving DecidableEq, Repr

/-- notificationService.js `validateStockAvailability`: collect a shortfall
description for every item (with truthy qty) whose product is missing or has
less stock than the required quantity. -/
def validateStockAvailability (db : ProductDb) : List OrderItem → List StockShortfall
  | [] => []
  | i :: rest =>
    if i.qty = 0 then validateStockAvailability db rest
    else
      match db i.productId with
      | none => .productNotFound i.name :: validateStockAvailability db rest
      | some p =>
        if p.stockQuantity < i.qty then
          .insufficient p.name p.stockQuantity i.qty :: validateStockAvailability db rest
        else validateStockAvailability db rest

/-- Total quantity the items of a list carry for one product id (duplicates
accumulate). -/
def itemQtySum : List OrderItem → Nat → Int
  | [], _ => 0
  | i :: rest, pid => (if i.productId = pid then i.qty else 0) + itemQtySum rest pid

/-- A sequence of `updateProductStock` calls (each a list of items plus a
direction), applied left to right. -/
def applyAdjustSeq (db : ProductDb) : List (List OrderItem × StockOp) → ProductDb
  | [] => db
  | (items, op) :: rest => applyAdjustSeq (updateProductStock db items op).1 rest

/-- Brand-name enrichment shared by the order routes: keep the item's own
truthy `brandName`, otherwise copy it from the referenced product (null when
the product is missing). -/
def enrichItems (db : ProductDb) (items : List OrderItem) : List OrderItem :=
  items.map (fun i =>
    { i with brandName :=
        match i.brandName with
        | some b => if b = "" then (db i.productId).map (fun p => p.brandName) else some b
        | none => (db i.productId).map (fun p => p.brandName) })

/-! ## Dispatch with partial delivery (routes/orders.js POST /dispatch/:orderId) -/

/-- One element of the request's `deliveredItems` array.  `deliveredQty` and
`isDelivered` may be absent; the handler coalesces them with `|| 0` and
`|| false`. -/
structure DeliveredItem where
  productId : Nat
  deliveredQty : Option Int
  isDelivered : Option Bool
deriving DecidableEq, Repr

/-- Body of a dispatch request. -/
structure DispatchReq where
  deliveryPartner : Option String
  deliveredItems : Option (List DeliveredItem)
deriving DecidableEq, Repr

/-- JavaScript string falsiness: a missing field or the empty string. -/
def strFalsy : Option String → Bool
  | none => true
  | some s => s = ""

/-- Rejections of POST /dispatch/:orderId, carrying the data the source's
message strings name. -/
inductive DispatchErr where
  | notInvoiceStatus (current : String)
  | missingDeliveryPartner
  | missingDeliveredItems
  | negativeQty (item : String)
  | exceedsOrdered (item : String) (delivered : Int) (ordered : Int)
  | productNotFound (item : String)
  | insufficientStock (item : String) (available : Int) (requested : Int)
deriving DecidableEq, Repr

/-- The item record POST /dispatch writes for a matched delivered entry:
`deliveredQty: isDelivered ? deliveredQty : 0, isDelivered`. -/
def dispatchedItem (i : OrderItem) (d : DeliveredItem) : OrderItem :=
  { i with
    deliveredQty := if d.isDelivered.getD false then d.deliveredQty.getD 0 else 0
    isDelivered := d.isDelivered.getD false }

/-- The item's contribution to `isPartialDelivery`:
`!isDelivered || deliveredQty < orderItem.qty`. -/
def dispatchPartialFlag (i : OrderItem) (d : DeliveredItem) : Bool :=
  if d.isDelivered.getD false then decide (d.deliveredQty.getD 0 < i.qty) else true

/-- One iteration of the POST /dispatch validation loop: match the order item
against the first `deliveredItems` entry with the same product id; when there
is none the item is recorded undelivered and the delivery is partial;
otherwise coalesce and validate the delivered quantity (non-negative, at most
the ordered quantity, covered by stock when the item is delivered), and
return the rewritten item, the queued deduction (if any) and this item's
contribution to the partial flag. -/
def processOneDispatchItem (db : ProductDb) (dis : List DeliveredItem) (i : OrderItem) :
    Except DispatchErr (OrderItem × Option (Nat × Int) × Bool) :=
  match dis.find? (fun d => d.productId = i.productId) with
  | none => .ok ({ i with deliveredQty := 0, isDelivered := false }, none, true)
  | some d =>
    if d.deliveredQty.getD 0 < 0 then .error (.negativeQty i.name)
    else if i.qty < d.deliveredQty.getD 0 then
      .error (.exceedsOrdered i.name (d.deliveredQty.getD 0) i.qty)
    else if d.isDelivered.getD false ∧ 0 < d.deliveredQty.getD 0 then
      match db i.productId with
      | none => .error (.productNotFound i.name)
      | some p =>
        if p.stockQuantity < d.deliveredQty.getD 0 then
          .error (.insufficientStock i.name p.stockQuantity (d.deliveredQty.getD 0))
        else .ok (dispatchedItem i d, some (i.productId, d.deliveredQty.getD 0),
                  dispatchPartialFlag i d)
    else .ok (dispatchedItem i d, none, dispatchPartialFlag i d)

/-- The validation loop of POST /dispatch over all order items, accumulating
the rewritten items, the queued stock deductions and the partial-delivery
flag.  No stock is written during this loop; the reads all see the
pre-state. -/
def processDispatchItems (db : ProductDb) (dis : List DeliveredItem) :
    List OrderItem → Except DispatchErr (List OrderItem × List (Nat × Int) × Bool)
  | [] => .ok ([], [], false)
  | i :: rest =>
    match processOneDispatchItem db dis i with
    | .error e => .error e
    | .ok (i2, up, ph) =>
      match processDispatchItems db dis rest with
      | .error e => .error e
      | .ok (is, us, pr) => .ok (i2 :: is, up.toList ++ us, ph || pr)

/-- One `$inc` write:
`Product.findByIdAndUpdate(pid, { $inc: { stockQuantity: -q } })` — an
unclamped decrement (a no-op when the product is gone). -/
def applyOneStockUpdate (db : ProductDb) (u : Nat × Int) : ProductDb :=
  match db u.1 with
  | none => db
  | some p => setProduct db u.1 { p with stockQuantity := p.stockQuantity - u.2 }

/-- The deduction loop of POST /dispatch and POST /complete. -/
def applyStockUpdates (db : ProductDb) : List (Nat × Int) → ProductDb
  | [] => db
  | u :: rest => applyStockUpdates (applyOneStockUpdate db u) rest

/-- The mutable state a single-order request touches. -/
structure SysState where
  order : Order
  stock : ProductDb

/-- Result of a handler: the response error (if any), the order and product
collection after the request, and the `stockDeducted` list of the response. -/
structure Outcome (ε : Type) where
  error : Option ε
  order : Order
  stock : ProductDb
  deducted : List (Nat × Int)

/-- The `findOneAndUpdate` write of a successful dispatch: Dispatched status,
the delivery partner, the rewritten items, the partial flag, the stamps, and
one pushed history entry. -/
def dispatchSuccessOrder (o : Order) (req : DispatchReq) (uid t : Nat)
    (items2 : List OrderItem) (isPart : Bool) : Order :=
  { o with
    orderStatus := "Dispatched"
    deliveryPartner := req.deliveryPartner
    orderItems := items2
    isPartialDelivery := isPart
    dispatchedAt := some t
    statusUpdatedBy := some uid
    statusUpdatedAt := some t
    statusHistory := o.statusHistory ++ [⟨"Dispatched", some uid, t⟩] }

/-- routes/orders.js POST /dispatch/:orderId: guard the Invoice status, the
delivery partner and the `deliveredItems` array, run the validation loop,
then perform the `$inc` deductions and write the dispatched order. -/
def dispatchCore (st : SysState) (req : DispatchReq) (uid t : Nat) :
    Except DispatchErr (Order × ProductDb × List (Nat × Int)) :=
  if st.order.orderStatus = "Invoice" then
    if strFalsy req.deliveryPartner then .error .missingDeliveryPartner
    else
      match req.deliveredItems with
      | none => .error .missingDeliveredItems
      | some dis =>
        match processDispatchItems st.stock dis st.order.orderItems with
        | .error e => .error e
        | .ok (items2, ups, isPart) =>
          .ok (dispatchSuccessOrder st.order req uid t items2 isPart,
               applyStockUpdates st.stock ups, ups)
  else .error (.notInvoiceStatus st.order.orderStatus)

/-- The response of POST /dispatch/:orderId: every rejection happens inside
`dispatchCore` before any write, so a rejected request leaves the order and
the stock exactly as they were. -/
def dispatchOrder (st : SysState) (req : DispatchReq) (uid t : Nat) : Outcome DispatchErr :=
  match dispatchCore st req uid t with
  | .error e => ⟨some e, st.order, st.stock, []⟩
  | .ok (o2, db2, ups) => ⟨none, o2, db2, ups⟩

/-! ## Completing a partially dispatched order (routes/orders.js POST /complete/:orderId) -/

/-- Rejections of POST /complete/:orderId. -/
inductive CompleteErr where
  | notDispatched (current : String)
  | nothingToComplete
  | productNotFound (item : String)
  | insufficientStock (item : String) (available : Int) (required : Int)
deriving DecidableEq, Repr

/-- One iteration of the POST /complete loop: an item already fully delivered
passes through untouched; otherwise the remaining quantity is validated
against stock and queued, and the item is marked fully delivered. -/
def processOneCompleteItem (db : ProductDb) (i : OrderItem) :
    Except CompleteErr (OrderItem × Option (Nat × Int)) :=
  if i.qty - i.deliveredQty ≤ 0 then .ok (i, none)
  else
    match db i.productId with
    | none => .error (.productNotFound i.name)
    | some p =>
      if p.stockQuantity < i.qty - i.deliveredQty then
        .error (.insufficientStock i.name p.stockQuantity (i.qty - i.deliveredQty))
      else
        .ok ({ i with deliveredQty := i.qty, isDelivered := true },
             some (i.productId, i.qty - i.deliveredQty))

/-- The remaining-quantity loop of POST /complete over all order items. -/
def processCompleteItems (db : ProductDb) :
    List OrderItem → Except CompleteErr (List OrderItem × List (Nat × Int))
  | [] => .ok ([], [])
  | i :: rest =>
    match processOneCompleteItem db i with
    | .error e => .error e
    | .ok (i2, up) =>
      match processCompleteItems db rest with
      | .error e => .error e
      | .ok (is, us) => .ok (i2 :: is, up.toList ++ us)

/-- routes/orders.js POST /complete/:orderId: only for a Dispatched order with
an outstanding partial delivery; deducts every remaining quantity via `$inc`
and rewrites only `orderItems` and `isPartialDelivery` on the order. -/
def completeCore (st : SysState) : Except CompleteErr (Order × ProductDb × List (Nat × Int)) :=
  if st.order.orderStatus = "Dispatched" then
    if st.order.isPartialDelivery then
      match processCompleteItems st.stock st.order.orderItems with
      | .error e => .error e
      | .ok (items2, ups) =>
        .ok ({ st.order with orderItems := items2, isPartialDelivery := false },
             applyStockUpdates st.stock ups, ups)
    else .error .nothingToComplete
  else .error (.notDispatched st.order.orderStatus)

/-- The response of POST /complete/:orderId. -/
def completeOrder (st : SysState) : Outcome CompleteErr :=
  match completeCore st with
  | .error e => ⟨some e, st.order, st.stock, []⟩
  | .ok (o2, db2, ups) => ⟨none, o2, db2, ups⟩

/-! ## Cancellation (notificationService.js router, POST /cancel/:orderId) -/

/-- Rejections of POST /cancel/:orderId. -/
inductive CancelErr where
  | alreadyCancelled
  | cannotCancelDispatched
deriving DecidableEq, Repr

/-- Body of a cancel request. -/
structure CancelReq where
  reason : Option String
deriving DecidableEq, Repr

/-- The stored cancellation reason: `req.body.reason || 'Cancelled by
admin'` (a missing or empty reason falls back to the default). -/
def cancelReasonOf (req : CancelReq) : String :=
  match req.reason with
  | none => "Cancelled by admin"
  | some r => if r = "" then "Cancelled by admin" else r

/-- The stock-restore step shared by cancellation and deletion:
`if (order.orderItems && order.orderItems.length > 0)
updateProductStock(order.orderItems, 'increase')`. -/
def restoreOrderStock (db : ProductDb) (items : List OrderItem) : ProductDb :=
  if items.isEmpty then db
  else (updateProductStock db items .increase).1

/-- The `findOneAndUpdate` write of a successful cancellation. -/
def cancelledOrderOf (o : Order) (req : CancelReq) (userName : String) (t : Nat) : Order :=
  { o with
    status := "cancelled"
    orderStatus := "Cancelled"
    cancelledBy := some userName
    cancelledAt := some t
    cancellationReason := some (cancelReasonOf req) }

/-- POST /cancel/:orderId: reject when `status` is already `cancelled` or
`orderStatus` is `Dispatched`; otherwise restore the committed item
quantities through `updateProductStock(..., 'increase')` and mark the order
cancelled, defaulting the reason when the supplied one is falsy. -/
def cancelOrder (st : SysState) (req : CancelReq) (userName : String) (t : Nat) :
    Outcome CancelErr :=
  if st.order.status = "cancelled" then ⟨some .alreadyCancelled, st.order, st.stock, []⟩
  else if st.order.orderStatus = "Dispatched" then
    ⟨some .cannotCancelDispatched, st.order, st.stock, []⟩
  else
    ⟨none, cancelledOrderOf st.order req userName t,
     restoreOrderStock st.stock st.order.orderItems, []⟩

/-! ## Order identifier generation (routes/orders.js `generateOrderId`) -/

/-- Left-pad a character list to length 3 with zeros
(`String(counter).padStart(3, '0')`). -/
def padStart3 (l : List Char) : List Char :=
  List.replicate (3 - l.length) '0' ++ l

/-- The identifier for a given counter value:
"ORD-" followed by the decimal digits padded to at least three. -/
def numToId (n : Nat) : List Char :=
  ['O', 'R', 'D', '-'] ++ padStart3 (Nat.toDigits 10 n)

/-- Byte-wise lexicographic comparison of two strings (as character lists),
the order MongoDB uses for `sort({ orderId: -1 })` on ASCII data. -/
def lexLt : List Char → List Char → Bool
  | [], [] => false
  | [], _ :: _ => true
  | _ :: _, [] => false
  | a :: as, b :: bs =>
    if a.toNat < b.toNat then true
    else if b.toNat < a.toNat then false
    else lexLt as bs

/-- `Order.findOne({}, {}, { sort: { orderId: -1 } })`: the stored order id
greatest in lexicographic order, if any order exists. -/
def dbMaxOrderId (store : List (List Char)) : Option (List Char) :=
  store.foldl
    (fun acc x =>
      match acc with
      | none => some x
      | some m => if lexLt m x then some x else some m)
    none

/-- Accumulator for `String.prototype.split('-')`. -/
def splitOnDashAux : List Char → List Char → List (List Char)
  | acc, [] => [acc.reverse]
  | acc, c :: rest =>
    if c = '-' then acc.reverse :: splitOnDashAux [] rest
    else splitOnDashAux (c :: acc) rest

/-- `orderId.split('-')`. -/
def splitOnDash (l : List Char) : List (List Char) :=
  splitOnDashAux [] l

/-- `parseInt` on a non-negative decimal: the leading digit run, `none` for
NaN (no leading digits). -/
def parseIntJs (l : List Char) : Option Nat :=
  let ds := l.takeWhile (fun c => decide ('0' ≤ c) && decide (c ≤ '9'))
  if ds.isEmpty then none
  else some (ds.foldl (fun a c => 10 * a + (c.toNat - 48)) 0)

/-- `parseInt(lastOrder.orderId.split('-')[1])`: NaN when there is no part
after the first dash or it does not start with a digit. -/
def parseSuffix (id : List Char) : Option Nat :=
  match (splitOnDash id).get? 1 with
  | none => none
  | some part => parseIntJs part

/-- The counter of routes/orders.js `generateOrderId`: parse the numeric
suffix of the lexicographically greatest stored id and increment it,
defaulting to 1 when no order exists or parsing fails. -/
def generateCounter (store : List (List Char)) : Nat :=
  match dbMaxOrderId store with
  | none => 1
  | some last =>
    match parseSuffix last with
    | none => 1
    | some k => k + 1

/-- routes/orders.js `generateOrderId`: read the lexicographically greatest
stored id, parse its numeric suffix, increment (default 1 when no order
exists or parsing fails), and format zero-padded to at least three digits. -/
def generateOrderId (store : List (List Char)) : List Char :=
  numToId (generateCounter store)

/-- Sequential generation from an empty store: each step stores the id the
generator produced (no concurrent writers). -/
def genStore : Nat → List (List Char)
  | 0 => []
  | n + 1 => genStore n ++ [generateOrderId (genStore n)]

/-- The expected store contents after `k` sequential generations. -/
def upTo (k : Nat) : List (List Char) :=
  (List.range k).map (fun i => numToId (i + 1))

/-! ## Status transition tables and the PUT /by-order-id/:orderId handlers -/

/-- The strict transition table (routes/orders.js and the legacy router). -/
def validTransitionsStrict (s : String) : List String :=
  if s = "Pending" then ["DC"]
  else if s = "DC" then ["Invoice"]
  else if s = "Invoice" then ["Dispatched"]
  else if s = "Dispatched" then []
  else []

/-- The permissive transition table (notificationService.js router): DC may
go directly to Dispatched. -/
def validTransitionsPermissive (s : String) : List String :=
  if s = "Pending" then ["DC"]
  else if s = "DC" then ["Invoice", "Dispatched"]
  else if s = "Invoice" then ["Dispatched"]
  else if s = "Dispatched" then []
  else []

/-- Rejections of the PUT /by-order-id/:orderId handlers.  The
`invalidTransition` constructor carries exactly what the source's message
names: the current status, the requested status and the allowed set. -/
inductive UpdErr where
  | invalidTransition (current : String) (requested : String) (allowed : List String)
  | missingDeliveryPartner
  | insufficientStockItems (shortfalls : List StockShortfall)
  | insufficientStockUpdate (shortfalls : List StockShortfall)
  | noItemsToAdd
deriving DecidableEq, Repr

/-- Body of an order update request (the fields the handlers inspect). -/
structure PutReq where
  orderStatus : Option String
  deliveryPartner : Option String
  orderItems : Option (List OrderItem)
  assignedToId : Option String
  dispatchItems : Option (List Nat)
  completePartialOrder : Bool
  itemsToAdd : Option (List OrderItem)
deriving DecidableEq, Repr

/-- The truthy requested status: `req.body.orderStatus &&` treats a missing
field and the empty string alike. -/
def reqStatusTruthy (req : PutReq) : Option String :=
  match req.orderStatus with
  | none => none
  | some s => if s = "" then none else some s

/-- The sentinel assignee id of routes/orders.js and notificationService.js
("Gaurav Miniyar"). -/
def gauravIdMain : String := "685a4143374df5c794581187"

/-- The sentinel assignee id of the legacy router. -/
def gauravIdLegacy : String := "688f027498b9e935ae3ca6ed"

/-- The `findOneAndUpdate` write of routes/orders.js PUT: spread the request
body over the order (including a raw, possibly empty `orderStatus`), recompute
`isWithout` from the request, stamp `statusUpdatedBy`/`statusUpdatedAt` and
push one history entry exactly when a truthy, different status was requested,
and enrich replaced order items with brand names. -/
def applyBodyMain (db : ProductDb) (o : Order) (req : PutReq) (uid t : Nat) : Order :=
  let changing : Bool :=
    match reqStatusTruthy req with
    | some s => s ≠ o.orderStatus
    | none => false
  { o with
    orderStatus := match req.orderStatus with | some s => s | none => o.orderStatus
    deliveryPartner := match req.deliveryPartner with | some d => some d | none => o.deliveryPartner
    assignedToId := match req.assignedToId with | some a => a | none => o.assignedToId
    isWithout := req.assignedToId = some gauravIdMain
    statusUpdatedBy := if changing then some uid else o.statusUpdatedBy
    statusUpdatedAt := if changing then some t else o.statusUpdatedAt
    orderItems := match req.orderItems with
      | some its => enrichItems db its
      | none => o.orderItems
    statusHistory :=
      if changing then
        o.statusHistory ++ [⟨match req.orderStatus with | some s => s | none => "", some uid, t⟩]
      else o.statusHistory }

/-- routes/orders.js PUT /by-order-id/:orderId: when a truthy status differing
from the current one is requested, enforce the strict transition table and
the delivery-partner guard before any write; otherwise (or on success) apply
the body.  Rejections return before `findOneAndUpdate`, leaving the order as
it was. -/
def putOrderMain (db : ProductDb) (o : Order) (req : PutReq) (uid t : Nat) :
    Option UpdErr × Order :=
  match reqStatusTruthy req with
  | some s =>
    if s = o.orderStatus then (none, applyBodyMain db o req uid t)
    else if s ∈ validTransitionsStrict o.orderStatus then
      if s = "Dispatched" then
        if strFalsy req.deliveryPartner then (some .missingDeliveryPartner, o)
        else (none, applyBodyMain db o req uid t)
      else (none, applyBodyMain db o req uid t)
    else (some (.invalidTransition o.orderStatus s (validTransitionsStrict o.orderStatus)), o)
  | none => (none, applyBodyMain db o req uid t)

/-- The `findOneAndUpdate` write of the legacy router's PUT: like the main
lineage but without order-item enrichment and without a history push, and the
status stamp uses the raw inequality `req.body.orderStatus !== order.orderStatus`. -/
def applyBodyLegacy (o : Order) (req : PutReq) (uid t : Nat) : Order :=
  let stamped : Bool := req.orderStatus ≠ some o.orderStatus
  { o with
    orderStatus := match req.orderStatus with | some s => s | none => o.orderStatus
    deliveryPartner := match req.deliveryPartner with | some d => some d | none => o.deliveryPartner
    assignedToId := match req.assignedToId with | some a => a | none => o.assignedToId
    isWithout := req.assignedToId = some gauravIdLegacy
    statusUpdatedBy := if stamped then some uid else o.statusUpdatedBy
    statusUpdatedAt := if stamped then some t else o.statusUpdatedAt
    orderItems := match req.orderItems with | some its => its | none => o.orderItems }

/-- The legacy router's PUT /by-order-id/:orderId (strict table, no history
push, no stock effects). -/
def putOrderLegacy (o : Order) (req : PutReq) (uid t : Nat) : Option UpdErr × Order :=
  match reqStatusTruthy req with
  | some s =>
    if s = o.orderStatus then (none, applyBodyLegacy o req uid t)
    else if s ∈ validTransitionsStrict o.orderStatus then
      if s = "Dispatched" then
        if strFalsy req.deliveryPartner then (some .missingDeliveryPartner, o)
        else (none, applyBodyLegacy o req uid t)
      else (none, applyBodyLegacy o req uid t)
    else (some (.invalidTransition o.orderStatus s (validTransitionsStrict o.orderStatus)), o)
  | none => (none, applyBodyLegacy o req uid t)

/-! ## The notificationService.js order router's PUT handler (permissive lineage) -/

/-- The `updateData` overrides the notificationService.js PUT handler
accumulates before its final `findOneAndUpdate`. -/
structure NsOverrides where
  items : Option (List OrderItem) := none
  partialIts : Option (List OrderItem) := none
  partialFlag : Option Bool := none
  fulfilled : Option Nat := none
deriving DecidableEq, Repr

/-- The Dispatched-entry branch of the notificationService.js PUT handler:
with `dispatchItems` indices, validate and debit only the selected items and
split the order into fulfilled and pending portions; without them, validate
and debit every order item. -/
def nsDispatchPhase (db : ProductDb) (o : Order) (req : PutReq) :
    Except UpdErr (ProductDb × NsOverrides) :=
  match req.dispatchItems with
  | some idxs =>
    let toDispatch := (o.orderItems.enum.filter (fun x => idxs.contains x.1)).map (fun x => x.2)
    let errs := validateStockAvailability db toDispatch
    if errs.isEmpty then
      let notDispatched :=
        (o.orderItems.enum.filter (fun x => !(idxs.contains x.1))).map (fun x => x.2)
      if notDispatched.isEmpty then
        .ok ((updateProductStock db o.orderItems .decrease).1,
             { partialIts := some [], partialFlag := some false,
               fulfilled := some o.orderItems.length })
      else
        .ok ((updateProductStock db toDispatch .decrease).1,
             { items := some toDispatch, partialIts := some notDispatched,
               partialFlag := some true, fulfilled := some toDispatch.length })
    else .error (.insufficientStockItems errs)
  | none =>
    let errs := validateStockAvailability db o.orderItems
    if errs.isEmpty then .ok ((updateProductStock db o.orderItems .decrease).1, {})
    else .error (.insufficientStockItems errs)

/-- The `completePartialOrder` branch: validate and debit the items to add,
append them to the order items and shrink the pending portion; this branch
responds immediately (the handler returns early). -/
def nsCompletePhase (db : ProductDb) (o : Order) (req : PutReq) (ov : NsOverrides) :
    Except UpdErr (ProductDb × NsOverrides) :=
  match req.itemsToAdd with
  | none => .error .noItemsToAdd
  | some toAdd =>
    if toAdd.isEmpty then .error .noItemsToAdd
    else
      let errs := validateStockAvailability db toAdd
      if errs.isEmpty then
        let enriched := enrichItems db toAdd
        let updated := o.orderItems ++ enriched
        let remaining := o.partialItems.filter
          (fun pi => !(enriched.any (fun ni => ni.productId = pi.productId)))
        let ov2 : NsOverrides :=
          { ov with
            items := some updated
            partialIts := some remaining
            fulfilled := some updated.length }
        let ov3 := if remaining.isEmpty
          then { ov2 with partialFlag := some false, partialIts := some ([] : List OrderItem) }
          else ov2
        .ok ((updateProductStock db enriched .decrease).1, ov3)
      else .error (.insufficientStockUpdate errs)

/-- The regular order-item replacement branch: validate the new items, credit
the old ones back, then enrich and debit the new ones (restore-then-debit). -/
def nsItemsPhase (db : ProductDb) (o : Order) (req : PutReq) (ov : NsOverrides) :
    Except UpdErr (ProductDb × NsOverrides) :=
  match req.orderItems with
  | none => .ok (db, ov)
  | some its =>
    let errs := validateStockAvailability db its
    if errs.isEmpty then
      let db2 := if o.orderItems.isEmpty then db
        else (updateProductStock db o.orderItems .increase).1
      let enriched := enrichItems db2 its
      .ok ((updateProductStock db2 enriched .decrease).1, { ov with items := some enriched })
    else .error (.insufficientStockUpdate errs)

/-- The final `findOneAndUpdate` write of the notificationService.js PUT:
spread the request body (raw status), recompute `isWithout`, stamp the status
fields on the raw inequality, and apply the accumulated overrides.  This
lineage pushes no statusHistory entry. -/
def nsApply (o : Order) (req : PutReq) (uid t : Nat) (ov : NsOverrides) : Order :=
  let stamped : Bool := req.orderStatus ≠ some o.orderStatus
  { o with
    orderStatus := match req.orderStatus with | some s => s | none => o.orderStatus
    deliveryPartner := match req.deliveryPartner with | some d => some d | none => o.deliveryPartner
    assignedToId := match req.assignedToId with | some a => a | none => o.assignedToId
    isWithout := req.assignedToId = some gauravIdMain
    statusUpdatedBy := if stamped then some uid else o.statusUpdatedBy
    statusUpdatedAt := if stamped then some t else o.statusUpdatedAt
    orderItems := ov.items.getD o.orderItems
    partialItems := ov.partialIts.getD o.partialItems
    isPartialOrder := ov.partialFlag.getD o.isPartialOrder
    fulfilledItemCount := ov.fulfilled.getD o.fulfilledItemCount }

/-- The transition-validation block of the notificationService.js PUT: runs
before any stock movement, enforces the permissive table, and for a
Dispatched entry checks the partner and runs the dispatch stock phase. -/
def nsGate (db : ProductDb) (o : Order) (req : PutReq) :
    Except UpdErr (ProductDb × NsOverrides) :=
  match reqStatusTruthy req with
  | some s =>
    if s = o.orderStatus then .ok (db, {})
    else if s ∈ validTransitionsPermissive o.orderStatus then
      if s = "Dispatched" then
        if strFalsy req.deliveryPartner then .error .missingDeliveryPartner
        else nsDispatchPhase db o req
      else .ok (db, {})
    else .error (.invalidTransition o.orderStatus s (validTransitionsPermissive o.orderStatus))
  | none => .ok (db, {})

/-- notificationService.js PUT /by-order-id/:orderId: the transition gate and
its Dispatched stock phase run first; then either the early-returning
`completePartialOrder` branch or the regular item-replacement branch runs;
the `findOneAndUpdate` write happens last.  A gate rejection leaves order and
stock untouched; a later rejection keeps the stock the phases already
wrote. -/
def putOrderNS (db : ProductDb) (o : Order) (req : PutReq) (uid t : Nat) :
    Option UpdErr × Order × ProductDb :=
  match nsGate db o req with
  | .error e => (some e, o, db)
  | .ok (db1, ov1) =>
    if req.completePartialOrder && o.isPartialOrder then
      match nsCompletePhase db1 o req ov1 with
      | .error e => (some e, o, db1)
      | .ok (db2, ov2) => (none, nsApply o req uid t ov2, db2)
    else
      match nsItemsPhase db1 o req ov1 with
      | .error e => (some e, o, db1)
      | .ok (db2, ov2) => (none, nsApply o req uid t ov2, db2)

/-! ## Order creation and deletion -/

/-- Rejections of order creation. -/
inductive CreateErr where
  | missingAssignee
  | emptyItems
  | schemaValidationFailed
deriving DecidableEq, Repr

/-- Body of an order creation request (the fields the handlers inspect). -/
structure CreateReq where
  assignedTo : String
  assignedToId : String
  scheduledFor : Option Nat
  orderItems : List OrderItem
  orderStatus : Option String
  customerName : String
  customerPhone : String
  customerAddress : String
  orderRoute : String
  paymentCondition : String
  additionalNotes : String
deriving DecidableEq, Repr

/-- notificationService.js POST /: require the assignment fields and a
non-empty item list, generate the next order id, compute the scheduling
status, enrich the items — and perform no stock movement at all (the source:
"No stock update at order creation - stock will be updated at dispatch
time").  Returns the created order and the untouched product collection. -/
def createOrderNS (db : ProductDb) (store : List (List Char)) (req : CreateReq)
    (creatorName : String) (now : Nat) : Except CreateErr Order × ProductDb :=
  if req.assignedTo = "" ∨ req.assignedToId = "" then (.error .missingAssignee, db)
  else if req.orderItems.isEmpty then (.error .emptyItems, db)
  else
    let sched : String × Nat × Option Nat :=
      match req.scheduledFor with
      | some d => if now < d then ("scheduled", d, some d) else ("active", now, some d)
      | none => ("active", now, none)
    let order : Order :=
      { orderId := String.mk (generateOrderId store)
        date := sched.2.1
        scheduledFor := sched.2.2
        status := sched.1
        orderStatus := match req.orderStatus with | some s => s | none => "Pending"
        customerName := req.customerName
        customerPhone := req.customerPhone
        customerAddress := req.customerAddress
        orderRoute := req.orderRoute
        paymentCondition := req.paymentCondition
        assignedTo := req.assignedTo
        assignedToId := req.assignedToId
        createdBy := creatorName
        orderItems := enrichItems db req.orderItems
        deliveryPartner := none
        statusUpdatedBy := none
        statusUpdatedAt := none
        statusHistory := []
        isWithout := req.assignedToId = gauravIdMain
        additionalNotes := req.additionalNotes
        isPartialDelivery := false
        isPartialOrder := false
        partialItems := []
        originalItemCount := req.orderItems.length
        fulfilledItemCount := req.orderItems.length
        dispatchedAt := none
        cancelledBy := none
        cancelledAt := none
        cancellationReason := none }
    (.ok order, db)

/-- notificationService.js DELETE /by-order-id/:orderId: before removing the
order record, credit every committed item quantity back through
`updateProductStock(..., 'increase')`.  Returns the product collection after
the restore. -/
def deleteOrderNS (db : ProductDb) (o : Order) : ProductDb :=
  restoreOrderStock db o.orderItems

/-- The Order model's pre('save') middleware (the model stored alongside
src/socket/index.js): when the `orderStatus` path is modified, push one
history entry from the current status and status stamps.  Mongoose runs this
middleware on `save()`, and on a newly constructed document every path that
was set — including `orderStatus`, which the schema requires — counts as
modified, so order creation invokes it with `modified = true`. -/
def preSaveHook (o : Order) (modified : Bool) (now : Nat) : Order :=
  if modified then
    { o with statusHistory :=
        o.statusHistory ++ [⟨o.orderStatus, o.statusUpdatedBy, o.statusUpdatedAt.getD now⟩] }
  else o

/-- The statuses the Order model's schema accepts for `orderStatus`. -/
def orderStatusEnum : List String := ["Pending", "DC", "Invoice", "Dispatched"]

/-- routes/orders.js POST /: require the assignment fields and a non-empty
item list, generate the id, enrich the items, and build the document with an
explicitly initialized one-entry `statusHistory` (status
`req.body.orderStatus || 'Pending'`).  `save()` then runs the schema
validators (`orderStatus` is required and enum-constrained) and the
pre('save') middleware, which — the document being new — pushes a second
entry for the same status. -/
def createOrderMain (db : ProductDb) (store : List (List Char)) (req : CreateReq)
    (uid : Nat) (creatorName : String) (t : Nat) : Except CreateErr Order :=
  if req.assignedTo = "" ∨ req.assignedToId = "" then .error .missingAssignee
  else if req.orderItems.isEmpty then .error .emptyItems
  else
    match req.orderStatus with
    | none => .error .schemaValidationFailed
    | some s =>
      if s ∈ orderStatusEnum then
        let initStatus := if s = "" then "Pending" else s
        let doc : Order :=
          { orderId := String.mk (generateOrderId store)
            date := t
            scheduledFor := none
            status := "active"
            orderStatus := s
            customerName := req.customerName
            customerPhone := req.customerPhone
            customerAddress := req.customerAddress
            orderRoute := req.orderRoute
            paymentCondition := req.paymentCondition
            assignedTo := req.assignedTo
            assignedToId := req.assignedToId
            createdBy := creatorName
            orderItems := enrichItems db req.orderItems
            deliveryPartner := none
            statusUpdatedBy := some uid
            statusUpdatedAt := some t
            statusHistory := [⟨initStatus, some uid, t⟩]
            isWithout := req.assignedToId = gauravIdMain
            additionalNotes := req.additionalNotes
            isPartialDelivery := false
            isPartialOrder := false
            partialItems := []
            originalItemCount := req.orderItems.length
            fulfilledItemCount := req.orderItems.length
            dispatchedAt := none
            cancelledBy := none
            cancelledAt := none
            cancellationReason := none }
        .ok (preSaveHook doc true t)
      else .error .schemaValidationFailed

/-! ## Notification fan-out recipients (notificationService.js `getRecipients`) -/

/-- A user document as the recipient query sees it. -/
structure UserRec where
  id : Nat
  role : String
  pushToken : Option String
deriving DecidableEq, Repr

/-- First-occurrence deduplication, the order `[...new Set(list)]` keeps. -/
def dedupAux : List Nat → List Nat → List Nat
  | _, [] => []
  | seen, x :: rest =>
    if x ∈ seen then dedupAux seen rest else x :: dedupAux (x :: seen) rest

/-- `[...new Set(recipients.map(String))]` over object ids. -/
def dedupIds (l : List Nat) : List Nat :=
  dedupAux [] l

/-- The inventory-management role set of the low/out-of-stock branch. -/
def inventoryRoles : List String := ["Admin", "Inventory Manager"]

/-- The `product_low_stock` / `product_out_of_stock` branch of
`getRecipients`: `User.find({ role: { $in: ['Admin', 'Inventory Manager'] },
pushToken: { $ne: null } })`, mapped to ids and deduplicated. -/
def getRecipientsInventory (users : List UserRec) : List Nat :=
  dedupIds ((users.filter (fun u => inventoryRoles.contains u.role && u.pushToken.isSome)).map
    (fun u => u.id))

/-! ## Concrete scenarios used by the witnesses and counterexamples -/

/-- An order item template. -/
def baseItem : OrderItem :=
  { productId := 0, name := "", brandName := none, dimension := "", qty := 0
    price := 0, total := 0, deliveredQty := 0, isDelivered := false }

/-- An order template. -/
def baseOrder : Order :=
  { orderId := "ORD-001", date := 0, scheduledFor := none, status := "active"
    orderStatus := "Pending", customerName := "Acme", customerPhone := "1"
    customerAddress := "Street", orderRoute := "North", paymentCondition := "Cash"
    assignedTo := "Asha", assignedToId := "u1", createdBy := "Uma"
    orderItems := [], deliveryPartner := none, statusUpdatedBy := none
    statusUpdatedAt := none, statusHistory := [], isWithout := false
    additionalNotes := "", isPartialDelivery := false, isPartialOrder := false
    partialItems := [], originalItemCount := 0, fulfilledItemCount := 0
    dispatchedAt := none, cancelledBy := none, cancelledAt := none
    cancellationReason := none }

/-- Product A with 10 units on hand. -/
def prodA : Product :=
  { name := "A", brandName := "BrA", stockQuantity := 10, dimension := "Std", lowStockThreshold := 2 }

/-- Product B with 10 units on hand. -/
def prodB : Product :=
  { name := "B", brandName := "BrB", stockQuantity := 10, dimension := "Std", lowStockThreshold := 2 }

/-- Collection holding products A (id 1) and B (id 2), 10 units each. -/
def dbAB : ProductDb := dbOf [(1, prodA), (2, prodB)]

/-- Order item: five units of product A. -/
def itemA5 : OrderItem :=
  { baseItem with productId := 1, name := "A", qty := 5, price := 3, total := 15 }

/-- Order item: three units of product B. -/
def itemB3 : OrderItem :=
  { baseItem with productId := 2, name := "B", qty := 3, price := 4, total := 12 }

/-- An order in Invoice status holding A×5 and B×3. -/
def invoiceOrder : Order :=
  { baseOrder with orderStatus := "Invoice", orderItems := [itemA5, itemB3] }

/-- The dispatch request of the partial-dispatch scenario: delivery partner
set, A delivered in full, one unit of B delivered. -/
def dispatchReqAB : DispatchReq :=
  { deliveryPartner := some "Ravi"
    deliveredItems := some [⟨1, some 5, some true⟩, ⟨2, some 1, some true⟩] }

/-- The state after the partial dispatch of `invoiceOrder` against `dbAB`. -/
def afterDispatch : Outcome DispatchErr :=
  dispatchOrder ⟨invoiceOrder, dbAB⟩ dispatchReqAB 7 100

/-- Product A with only 5 units on hand. -/
def prodA5 : Product :=
  { name := "A", brandName := "BrA", stockQuantity := 5, dimension := "Std", lowStockThreshold := 2 }

/-- Collection holding just product A (id 1) with 5 units. -/
def dbDup : ProductDb := dbOf [(1, prodA5)]

/-- An Invoice order that lists product A twice, five units each (nothing in
the schema forbids duplicate product lines). -/
def dupOrder : Order :=
  { baseOrder with orderStatus := "Invoice", orderItems := [itemA5, itemA5] }

/-- A dispatch request delivering the (shared) product A line in full. -/
def dupReq : DispatchReq :=
  { deliveryPartner := some "Ravi", deliveredItems := some [⟨1, some 5, some true⟩] }

/-- A dispatch request with no delivery partner. -/
def noPartnerReq : DispatchReq :=
  { deliveryPartner := none, deliveredItems := some [] }

/-- A dispatched order with an outstanding partial delivery: A fully
delivered, B delivered 1 of 3. -/
def partialDispatchedOrder : Order :=
  { baseOrder with
    orderStatus := "Dispatched"
    deliveryPartner := some "Ravi"
    isPartialDelivery := true
    orderItems := [{ itemA5 with deliveredQty := 5, isDelivered := true },
                   { itemB3 with deliveredQty := 1, isDelivered := true }] }

/-- Order item: three units of product A. -/
def itemA3 : OrderItem :=
  { baseItem with productId := 1, name := "A", qty := 3, price := 3, total := 9 }

/-- Order item: two units of product B. -/
def itemB2 : OrderItem :=
  { baseItem with productId := 2, name := "B", qty := 2, price := 4, total := 8 }

/-- A creation request template. -/
def baseCreateReq : CreateReq :=
  { assignedTo := "Asha", assignedToId := "u1", scheduledFor := none
    orderItems := [], orderStatus := some "Pending", customerName := "Acme"
    customerPhone := "1", customerAddress := "Street", orderRoute := "North"
    paymentCondition := "Cash", additionalNotes := "" }

/-- Creation request for the round-trip scenario: A×3 and B×2. -/
def createReqRT : CreateReq :=
  { baseCreateReq with orderItems := [itemA3, itemB2] }

/-- The order the notificationService.js creation handler builds for the
round-trip scenario (creation succeeds, so the match never falls back). -/
def rtOrder : Order :=
  match (createOrderNS dbAB [] createReqRT "Uma" 0).1 with
  | .ok o => o
  | .error _ => baseOrder

/-- The order the routes/orders.js creation handler (with the save hook)
builds for a plain Pending creation. -/
def mainCreated : Order :=
  match createOrderMain dbAB [] createReqRT 7 "Uma" 5 with
  | .ok o => o
  | .error _ => baseOrder

/-- A cancellable order holding A×3 and B×2 in DC status. -/
def cancellableOrder : Order :=
  { baseOrder with orderStatus := "DC", orderItems := [itemA3, itemB2] }

/-- An order already dispatched (for rejection checks). -/
def dispatchedOrder : Order :=
  { baseOrder with orderStatus := "Dispatched" }

/-- An update request whose `orderStatus` is the empty string. -/
def emptyStatusReq : PutReq :=
  { orderStatus := some "", deliveryPartner := none, orderItems := none
    assignedToId := none, dispatchItems := none, completePartialOrder := false
    itemsToAdd := none }

/-- An update request asking for a Pending order to jump to Invoice. -/
def pendingToInvoiceReq : PutReq :=
  { orderStatus := some "Invoice", deliveryPartner := none, orderItems := none
    assignedToId := none, dispatchItems := none, completePartialOrder := false
    itemsToAdd := none }

/-- The empty product collection. -/
def dbEmpty : ProductDb := dbOf []

/-- An update request moving a Pending order to DC. -/
def pendingToDCReq : PutReq :=
  { orderStatus := some "DC", deliveryPartner := none, orderItems := none
    assignedToId := none, dispatchItems := none, completePartialOrder := false
    itemsToAdd := none }

/-- The three-digit zero-padded decimal form of a number below 1000, written
with explicit digit characters; used to reason about `padStart3`. -/
def pad3 (n : Nat) : List Char :=
  [Char.ofNat (48 + n / 100), Char.ofNat (48 + n / 10 % 10), Char.ofNat (48 + n % 10)]

/-- Users for the fan-out witness scenarios. -/
def usersX : List UserRec :=
  [⟨1, "Admin", some "tok1"⟩, ⟨2, "Staff", some "tok2"⟩,
   ⟨3, "Inventory Manager", none⟩, ⟨1, "Admin", some "tok1"⟩, ⟨4, "Inventory Manager", some "tok4"⟩]

/-! # Theorems -/

/-! ## Stock ledger lemmas -/

theorem setProduct_self (db : ProductDb) (pid : Nat) (p : Product) :
    setProduct db pid p pid = some p := by
  simp [setProduct]

theorem setProduct_other (db : ProductDb) (pid : Nat) (p : Product) (q : Nat) (h : q ≠ pid) :
    setProduct db pid p q = db q := by
  simp [setProduct, h]

theorem allNonneg_setProduct {db : ProductDb} {pid : Nat} {p : Product}
    (hdb : allNonneg db) (hp : 0 ≤ p.stockQuantity) : allNonneg (setProduct db pid p) := by
  intro q pr hq
  by_cases hqp : q = pid
  · subst hqp; rw [setProduct_self] at hq; cases hq; exact hp
  · rw [setProduct_other db pid p q hqp] at hq; exact hdb q pr hq

theorem adjustedProduct_nonneg (p : Product) (qty : Int) (op : StockOp) :
    0 ≤ (adjustedProduct p qty op).stockQuantity :=
  le_max_left 0 _

theorem allNonneg_updateOneProduct {db : ProductDb} {i : OrderItem} {op : StockOp}
    (h : allNonneg db) : allNonneg (updateOneProduct db i op).1 := by
  unfold updateOneProduct
  by_cases hq : i.qty = 0
  · simpa [hq] using h
  · rw [if_neg hq]
    cases hdb : db i.productId with
    | none => exact h
    | some p => exact allNonneg_setProduct h (adjustedProduct_nonneg p i.qty op)

theorem updateOneProduct_writes {db : ProductDb} {i : OrderItem} {op : StockOp}
    {pid : Nat} {p : Product} (h : (updateOneProduct db i op).1 pid = some p) :
    0 ≤ p.stockQuantity ∨ db pid = some p := by
  unfold updateOneProduct at h
  by_cases hq : i.qty = 0
  · rw [if_pos hq] at h; exact Or.inr h
  · rw [if_neg hq] at h
    cases hdb : db i.productId with
    | none => rw [hdb] at h; exact Or.inr h
    | some pr =>
      rw [hdb] at h
      dsimp only at h
      by_cases hpp : pid = i.productId
      · subst hpp
        rw [setProduct_self] at h
        cases h
        exact Or.inl (adjustedProduct_nonneg pr i.qty op)
      · rw [setProduct_other _ _ _ _ hpp] at h
        exact Or.inr h

theorem allNonneg_updateProductStock :
    ∀ (items : List OrderItem) (db : ProductDb) (op : StockOp),
      allNonneg db → allNonneg (updateProductStock db items op).1 := by
  intro items
  induction items with
  | nil => intro db op h; simpa [updateProductStock] using h
  | cons i rest ih =>
    intro db op h
    exact ih _ op (allNonneg_updateOneProduct h)

theorem updateProductStock_writes_clamped :
    ∀ (items : List OrderItem) (db : ProductDb) (op : StockOp) (pid : Nat) (p : Product),
      (updateProductStock db items op).1 pid = some p →
      0 ≤ p.stockQuantity ∨ db pid = some p := by
  intro items
  induction items with
  | nil => intro db op pid p h; right; simpa [updateProductStock] using h
  | cons i rest ih =>
    intro db op pid p h
    have h2 : (updateProductStock (updateOneProduct db i op).1 rest op).1 pid = some p := h
    rcases ih _ op pid p h2 with hnn | hold
    · exact Or.inl hnn
    · exact updateOneProduct_writes hold

theorem stockAt_updateOneProduct_increase {db : ProductDb} {i : OrderItem}
    {pid : Nat} {s : Int} (hdb : allNonneg db) (hiq : 0 ≤ i.qty)
    (hs : stockAt db pid = some s) :
    stockAt (updateOneProduct db i .increase).1 pid
      = some (s + (if i.productId = pid then i.qty else 0)) := by
  unfold updateOneProduct
  by_cases hq : i.qty = 0
  · rw [if_pos hq, hq]
    simpa [ite_self] using hs
  · rw [if_neg hq]
    cases hdbi : db i.productId with
    | none =>
      have hne : ¬ i.productId = pid := by
        intro heq
        rw [heq] at hdbi
        simp [stockAt, hdbi] at hs
      simpa [hne] using hs
    | some p =>
      have hps : 0 ≤ p.stockQuantity := hdb _ _ hdbi
      by_cases hpp : i.productId = pid
      · have hsp : p.stockQuantity = s := by
          rw [hpp] at hdbi
          rw [stockAt, hdbi] at hs
          simpa using hs
        rw [if_pos hpp]
        dsimp only
        rw [stockAt, ← hpp, setProduct_self]
        simp only [Option.map_some']
        congr 1
        simp only [adjustedProduct]
        omega
      · rw [if_neg hpp]
        dsimp only
        have h2 : stockAt (setProduct db i.productId (adjustedProduct p i.qty .increase)) pid
            = some s := by
          rw [stockAt, setProduct_other _ _ _ _ (fun h => hpp h.symm)]
          exact hs
        rw [h2]
        simp

theorem stockAt_updateProductStock_increase :
    ∀ (items : List OrderItem) (db : ProductDb) (pid : Nat) (s : Int),
      allNonneg db → (∀ i ∈ items, 0 ≤ i.qty) → stockAt db pid = some s →
      stockAt (updateProductStock db items .increase).1 pid
        = some (s + itemQtySum items pid) := by
  intro items
  induction items with
  | nil =>
    intro db pid s _ _ hs
    simpa [updateProductStock, itemQtySum] using hs
  | cons i rest ih =>
    intro db pid s hdb hqty hs
    have hiq : 0 ≤ i.qty := hqty i (List.mem_cons_self i rest)
    have hqrest : ∀ j ∈ rest, 0 ≤ j.qty := fun j hj => hqty j (List.mem_cons_of_mem i hj)
    have hstep := stockAt_updateOneProduct_increase hdb hiq hs
    have hres := ih (updateOneProduct db i .increase).1 pid
      (s + (if i.productId = pid then i.qty else 0))
      (allNonneg_updateOneProduct hdb) hqrest hstep
    have hgoal : (updateProductStock db (i :: rest) StockOp.increase).1
        = (updateProductStock (updateOneProduct db i .increase).1 rest .increase).1 := rfl
    rw [hgoal, hres, itemQtySum]
    congr 1
    omega

/-! ## Dispatch deduction lemmas -/

theorem processOneDispatchItem_guard {db : ProductDb} {dis : List DeliveredItem}
    {i : OrderItem} {r : OrderItem × Option (Nat × Int) × Bool}
    (h : processOneDispatchItem db dis i = .ok r) :
    ∀ pq ∈ r.2.1.toList,
      0 < pq.2 ∧ pq.1 = i.productId ∧ ∃ p, db pq.1 = some p ∧ pq.2 ≤ p.stockQuantity := by
  intro pq hpq
  unfold processOneDispatchItem at h
  split at h
  · cases h
    simp at hpq
  · rename_i d hfind
    split at h
    · cases h
    · split at h
      · cases h
      · split at h
        · rename_i hdel
          split at h
          · cases h
          · rename_i p hdbi
            split at h
            · cases h
            · rename_i hstock
              cases h
              simp only [Option.toList_some, List.mem_singleton] at hpq
              subst hpq
              exact ⟨hdel.2, rfl, p, hdbi, by omega⟩
        · cases h
          simp at hpq

theorem processDispatchItems_guards :
    ∀ (items : List OrderItem) (db : ProductDb) (dis : List DeliveredItem)
      (r : List OrderItem × List (Nat × Int) × Bool),
      processDispatchItems db dis items = .ok r →
      (∀ pq ∈ r.2.1, 0 < pq.2 ∧ ∃ p, db pq.1 = some p ∧ pq.2 ≤ p.stockQuantity) ∧
      List.Sublist (r.2.1.map Prod.fst) (items.map (fun i => i.productId)) := by
  intro items
  induction items with
  | nil =>
    intro db dis r h
    unfold processDispatchItems at h
    cases h
    exact ⟨by simp, by simp⟩
  | cons i rest ih =>
    intro db dis r h
    unfold processDispatchItems at h
    cases hone : processOneDispatchItem db dis i with
    | error e => rw [hone] at h; cases h
    | ok one =>
      rw [hone] at h
      obtain ⟨i2, up, ph⟩ := one
      cases hrest : processDispatchItems db dis rest with
      | error e => rw [hrest] at h; cases h
      | ok rr =>
        rw [hrest] at h
        obtain ⟨is, us, pr⟩ := rr
        cases h
        have hrec := ih db dis (is, us, pr) hrest
        constructor
        · intro pq hpq
          simp only [List.mem_append] at hpq
          rcases hpq with hup | hus
          · have hg := processOneDispatchItem_guard hone pq hup
            exact ⟨hg.1, hg.2.2⟩
          · exact hrec.1 pq hus
        · cases hup : up with
          | none =>
            subst hup
            simp only [Option.toList_none, List.nil_append]
            exact List.Sublist.cons _ hrec.2
          | some u =>
            subst hup
            have hg := processOneDispatchItem_guard hone u (by simp)
            simp only [Option.toList_some, List.singleton_append, List.map_cons]
            rw [hg.2.1]
            exact List.Sublist.cons₂ _ hrec.2

theorem allNonneg_applyOneStockUpdate {db : ProductDb} {u : Nat × Int}
    (hdb : allNonneg db) {p : Product} (hp : db u.1 = some p) (hq : u.2 ≤ p.stockQuantity) :
    allNonneg (applyOneStockUpdate db u) := by
  have hres : applyOneStockUpdate db u
      = setProduct db u.1 { p with stockQuantity := p.stockQuantity - u.2 } := by
    unfold applyOneStockUpdate
    rw [hp]
  rw [hres]
  intro q pr hpr
  by_cases hqq : q = u.1
  · subst hqq
    rw [setProduct_self] at hpr
    cases hpr
    simp only
    omega
  · rw [setProduct_other _ _ _ _ hqq] at hpr
    exact hdb q pr hpr

theorem applyOneStockUpdate_other {db : ProductDb} {u : Nat × Int} {q : Nat}
    (h : q ≠ u.1) : applyOneStockUpdate db u q = db q := by
  unfold applyOneStockUpdate
  cases hdb : db u.1 with
  | none => rfl
  | some p => exact setProduct_other _ _ _ _ h

theorem allNonneg_applyStockUpdates :
    ∀ (ups : List (Nat × Int)) (db : ProductDb),
      allNonneg db →
      (∀ pq ∈ ups, ∃ p, db pq.1 = some p ∧ pq.2 ≤ p.stockQuantity) →
      (ups.map Prod.fst).Nodup →
      allNonneg (applyStockUpdates db ups) := by
  intro ups
  induction ups with
  | nil => intro db hdb _ _; simpa [applyStockUpdates] using hdb
  | cons u rest ih =>
    intro db hdb hg hnd
    obtain ⟨p, hp, hq⟩ := hg u (List.mem_cons_self u rest)
    have hdb2 : allNonneg (applyOneStockUpdate db u) :=
      allNonneg_applyOneStockUpdate hdb hp hq
    rw [List.map_cons] at hnd
    have hnotin : u.1 ∉ rest.map Prod.fst := (List.nodup_cons.mp hnd).1
    have hg2 : ∀ pq ∈ rest, ∃ pr, applyOneStockUpdate db u pq.1 = some pr ∧
        pq.2 ≤ pr.stockQuantity := by
      intro pq hpq
      obtain ⟨pr, hpr, hqr⟩ := hg pq (List.mem_cons_of_mem u hpq)
      have hne : pq.1 ≠ u.1 := by
        intro heq
        exact hnotin (heq ▸ List.mem_map_of_mem Prod.fst hpq)
      exact ⟨pr, (applyOneStockUpdate_other hne) ▸ hpr, hqr⟩
    have hnd2 : (rest.map Prod.fst).Nodup := (List.nodup_cons.mp hnd).2
    exact ih (applyOneStockUpdate db u) hdb2 hg2 hnd2

/-! ## Dispatch and complete handler lemmas -/

theorem dispatchCore_ok {st : SysState} {req : DispatchReq} {uid t : Nat}
    {x : Order × ProductDb × List (Nat × Int)}
    (h : dispatchCore st req uid t = .ok x) :
    ∃ dis items2 ups isPart,
      req.deliveredItems = some dis ∧
      processDispatchItems st.stock dis st.order.orderItems = .ok (items2, ups, isPart) ∧
      x = (dispatchSuccessOrder st.order req uid t items2 isPart,
           applyStockUpdates st.stock ups, ups) := by
  unfold dispatchCore at h
  split at h
  · split at h
    · cases h
    · split at h
      · cases h
      · rename_i dis hdis
        split at h
        · cases h
        · rename_i items2 ups isPart hproc
          cases h
          exact ⟨dis, items2, ups, isPart, hdis, hproc, rfl⟩
  · cases h

theorem completeCore_ok {st : SysState} {x : Order × ProductDb × List (Nat × Int)}
    (h : completeCore st = .ok x) :
    ∃ items2 ups,
      processCompleteItems st.stock st.order.orderItems = .ok (items2, ups) ∧
      st.order.orderStatus = "Dispatched" ∧ st.order.isPartialDelivery = true ∧
      x = ({ st.order with orderItems := items2, isPartialDelivery := false },
           applyStockUpdates st.stock ups, ups) := by
  unfold completeCore at h
  split at h
  · rename_i hdisp
    split at h
    · rename_i hpart
      split at h
      · cases h
      · rename_i items2 ups hproc
        cases h
        exact ⟨items2, ups, hproc, hdisp, hpart, rfl⟩
    · cases h
  · cases h

theorem processOneCompleteItem_static {db : ProductDb} {i : OrderItem}
    {one : OrderItem × Option (Nat × Int)}
    (h : processOneCompleteItem db i = .ok one) : itemStatic one.1 = itemStatic i := by
  unfold processOneCompleteItem at h
  split at h
  · cases h; rfl
  · split at h
    · cases h
    · split at h
      · cases h
      · cases h; rfl

theorem processCompleteItems_static :
    ∀ (items : List OrderItem) (db : ProductDb) (r : List OrderItem × List (Nat × Int)),
      processCompleteItems db items = .ok r →
      r.1.map itemStatic = items.map itemStatic := by
  intro items
  induction items with
  | nil =>
    intro db r h
    unfold processCompleteItems at h
    cases h
    simp
  | cons i rest ih =>
    intro db r h
    unfold processCompleteItems at h
    cases hone : processOneCompleteItem db i with
    | error e => rw [hone] at h; cases h
    | ok one =>
      rw [hone] at h
      obtain ⟨i2, up⟩ := one
      cases hrest : processCompleteItems db rest with
      | error e => rw [hrest] at h; cases h
      | ok rr =>
        rw [hrest] at h
        obtain ⟨is, us⟩ := rr
        cases h
        have hstatic : itemStatic i2 = itemStatic i := processOneCompleteItem_static hone
        simp only [List.map_cons, hstatic]
        rw [ih db (is, us) hrest]

/-! ## Fan-out recipient lemmas -/

theorem dedupAux_nodup : ∀ (l seen : List Nat), (dedupAux seen l).Nodup := by
  intro l
  induction l with
  | nil => intro seen; simp [dedupAux]
  | cons x rest ih =>
    intro seen
    unfold dedupAux
    by_cases hx : x ∈ seen
    · rw [if_pos hx]; exact ih seen
    · rw [if_neg hx]
      refine List.nodup_cons.mpr ⟨?_, ih (x :: seen)⟩
      have : ∀ (l2 : List Nat) (seen2 : List Nat) (y : Nat), y ∈ seen2 → y ∉ dedupAux seen2 l2 := by
        intro l2
        induction l2 with
        | nil => intro seen2 y _; simp [dedupAux]
        | cons z r2 ih2 =>
          intro seen2 y hy
          unfold dedupAux
          by_cases hz : z ∈ seen2
          · rw [if_pos hz]; exact ih2 seen2 y hy
          · rw [if_neg hz]
            intro hmem
            rcases List.mem_cons.mp hmem with h1 | h2
            · exact hz (h1 ▸ hy)
            · exact ih2 (z :: seen2) y (List.mem_cons_of_mem z hy) h2
      exact this rest (x :: seen) x (List.mem_cons_self x seen)

theorem dedupAux_mem : ∀ (l seen : List Nat) (y : Nat),
    y ∈ dedupAux seen l ↔ y ∈ l ∧ y ∉ seen := by
  intro l
  induction l with
  | nil => intro seen y; simp [dedupAux]
  | cons x rest ih =>
    intro seen y
    unfold dedupAux
    by_cases hx : x ∈ seen
    · rw [if_pos hx, ih]
      constructor
      · rintro ⟨h1, h2⟩; exact ⟨List.mem_cons_of_mem x h1, h2⟩
      · rintro ⟨h1, h2⟩
        rcases List.mem_cons.mp h1 with h3 | h3
        · exact absurd (h3 ▸ hx) h2
        · exact ⟨h3, h2⟩
    · rw [if_neg hx]
      constructor
      · intro hmem
        rcases List.mem_cons.mp hmem with h1 | h1
        · exact ⟨h1 ▸ List.mem_cons_self x rest, h1 ▸ hx⟩
        · rcases (ih (x :: seen) y).mp h1 with ⟨h2, h3⟩
          refine ⟨List.mem_cons_of_mem x h2, fun hy => h3 (List.mem_cons_of_mem x hy)⟩
      · rintro ⟨h1, h2⟩
        rcases List.mem_cons.mp h1 with h3 | h3
        · exact h3 ▸ List.mem_cons_self x _
        · by_cases hxy : y = x
          · exact hxy ▸ List.mem_cons_self x _
          · exact List.mem_cons_of_mem x
              ((ih (x :: seen) y).mpr ⟨h3, fun hy => by
                rcases List.mem_cons.mp hy with h4 | h4
                · exact hxy h4
                · exact h2 h4⟩)

theorem dedupIds_nodup (l : List Nat) : (dedupIds l).Nodup :=
  dedupAux_nodup l []

theorem dedupIds_mem (l : List Nat) (y : Nat) : y ∈ dedupIds l ↔ y ∈ l := by
  rw [dedupIds, dedupAux_mem]
  simp

/-- C9: For a low-stock or out-of-stock event, the computed recipient set is
duplicate-free and contains exactly the ids of users whose role is Admin or
Inventory Manager and whose push token is registered (non-null); a user
qualifying more than once appears exactly once. -/
theorem claim_C9 :
    ∀ (users : List UserRec) (x : Nat),
      (getRecipientsInventory users).Nodup ∧
      (x ∈ getRecipientsInventory users ↔
        ∃ u, u ∈ users ∧ u.id = x ∧ u.role ∈ inventoryRoles ∧ u.pushToken.isSome) := by
  intro users x
  constructor
  · exact dedupIds_nodup _
  · rw [getRecipientsInventory, dedupIds_mem]
    simp only [List.mem_map, List.mem_filter, Bool.and_eq_true, decide_eq_true_eq]
    constructor
    · rintro ⟨u, ⟨hu, hrole, htok⟩, hid⟩
      exact ⟨u, hu, hid, by simpa using hrole, htok⟩
    · rintro ⟨u, hu, hid, hrole, htok⟩
      exact ⟨u, ⟨hu, by simpa using hrole, htok⟩, hid⟩

theorem allNonneg_dbOf (l : List (Nat × Product))
    (h : ∀ x ∈ l, 0 ≤ x.2.stockQuantity) : allNonneg (dbOf l) := by
  intro pid p hp
  unfold dbOf at hp
  cases hf : l.find? (fun x => x.1 = pid) with
  | none => rw [hf] at hp; cases hp
  | some x =>
    rw [hf] at hp
    cases hp
    exact h x (List.mem_of_find?_eq_some hf)

/-! ## Claim C2: stock non-negativity -/

/-- C2 (amended): every write of the `updateProductStock` adjust operation is
clamped at `max 0 (current + delta)`, so any sequence of adjust calls
preserves non-negative stock; the dispatch route's `$inc` deduction, by
contrast, is unclamped but guarded by a per-item availability check, which
keeps stock non-negative provided no product id repeats among the order's
items. -/
theorem claim_C2 :
    (∀ (db : ProductDb) (ops : List (List OrderItem × StockOp)),
        allNonneg db → allNonneg (applyAdjustSeq db ops)) ∧
    (∀ (items : List OrderItem) (db : ProductDb) (op : StockOp) (pid : Nat) (p : Product),
        (updateProductStock db items op).1 pid = some p →
        0 ≤ p.stockQuantity ∨ db pid = some p) ∧
    (∀ (st : SysState) (req : DispatchReq) (uid t : Nat),
        allNonneg st.stock →
        (st.order.orderItems.map (fun i => i.productId)).Nodup →
        (dispatchOrder st req uid t).error = none →
        allNonneg (dispatchOrder st req uid t).stock) := by
  refine ⟨?_, ?_, ?_⟩
  · intro db ops
    induction ops generalizing db with
    | nil => intro h; simpa [applyAdjustSeq] using h
    | cons hd rest ih =>
      intro h
      obtain ⟨items, op⟩ := hd
      exact ih _ (allNonneg_updateProductStock items db op h)
  · exact fun items db op pid p h => updateProductStock_writes_clamped items db op pid p h
  · intro st req uid t hnn hnd herr
    unfold dispatchOrder at herr ⊢
    cases hc : dispatchCore st req uid t with
    | error e => rw [hc] at herr; simp at herr
    | ok x =>
      obtain ⟨o2, db2, ups⟩ := x
      obtain ⟨dis, items2, ups2, isPart, hdis, hproc, hx⟩ := dispatchCore_ok hc
      have hdb2 : db2 = applyStockUpdates st.stock ups2 := congrArg (fun y => y.2.1) hx
      have hguards := processDispatchItems_guards st.order.orderItems st.stock dis
        (items2, ups2, isPart) hproc
      have hndups : (ups2.map Prod.fst).Nodup := List.Nodup.sublist hguards.2 hnd
      show allNonneg db2
      rw [hdb2]
      exact allNonneg_applyStockUpdates ups2 st.stock hnn
        (fun pq hpq => (hguards.1 pq hpq).2) hndups

/-- Witness for C2: the partial-dispatch scenario has distinct product lines
and non-negative stock, and its accepted dispatch leaves stock
non-negative. -/
theorem claim_C2_witness :
    allNonneg dbAB ∧
    (invoiceOrder.orderItems.map (fun i => i.productId)).Nodup ∧
    (dispatchOrder ⟨invoiceOrder, dbAB⟩ dispatchReqAB 7 100).error = none ∧
    allNonneg (dispatchOrder ⟨invoiceOrder, dbAB⟩ dispatchReqAB 7 100).stock := by
  have hnn : allNonneg dbAB := allNonneg_dbOf _ (by decide)
  exact ⟨hnn, by decide, rfl,
    claim_C2.2.2 ⟨invoiceOrder, dbAB⟩ dispatchReqAB 7 100 hnn (by decide) rfl⟩

/-- Counterexample for C2 as stated: an Invoice order listing the same product
twice (stock 5, each line ordering 5, one delivered entry covering both) is
accepted by POST /dispatch — each line is validated against the same
pre-deduction stock — and the two unclamped `$inc` deductions drive the
stock to -5, which is negative: the dispatch debit does not clamp at 0. -/
theorem claim_C2_counterexample :
    (dispatchOrder ⟨dupOrder, dbDup⟩ dupReq 1 2).error = none ∧
    stockAt (dispatchOrder ⟨dupOrder, dbDup⟩ dupReq 1 2).stock 1 = some (-5) ∧
    ¬ (0 : Int) ≤ -5 := by
  refine ⟨rfl, by decide, by decide⟩

/-! ## Claim C3: the partial dispatch scenario -/

/-- C3: For an Invoice order with items A×5 and B×3, dispatching with a
delivery partner and deliveredItems [(A, 5, delivered), (B, 1, delivered)]
yields a Dispatched order with isPartialDelivery, A recorded 5 of 5, B
recorded 1 against 3, stock debited exactly A:5 and B:1; the subsequent
complete command debits the remaining B:2, marks every item fully delivered
and clears the partial flag. -/
theorem claim_C3 :
    afterDispatch.error = none ∧
    afterDispatch.order.orderStatus = "Dispatched" ∧
    afterDispatch.order.isPartialDelivery = true ∧
    afterDispatch.order.orderItems.map
        (fun i => (i.productId, i.qty, i.deliveredQty, i.isDelivered))
      = [(1, 5, 5, true), (2, 3, 1, true)] ∧
    afterDispatch.deducted = [(1, 5), (2, 1)] ∧
    stockAt afterDispatch.stock 1 = some 5 ∧
    stockAt afterDispatch.stock 2 = some 9 ∧
    (completeOrder ⟨afterDispatch.order, afterDispatch.stock⟩).error = none ∧
    (completeOrder ⟨afterDispatch.order, afterDispatch.stock⟩).deducted = [(2, 2)] ∧
    stockAt (completeOrder ⟨afterDispatch.order, afterDispatch.stock⟩).stock 2 = some 7 ∧
    (completeOrder ⟨afterDispatch.order, afterDispatch.stock⟩).order.orderItems.map
        (fun i => (i.deliveredQty, i.isDelivered)) = [(5, true), (3, true)] ∧
    (completeOrder ⟨afterDispatch.order, afterDispatch.stock⟩).order.isPartialDelivery = false := by
  decide

/-! ## Claim C4: rejected dispatches mutate nothing -/

/-- C4: every rejected dispatch request — missing delivery partner, negative
or excessive delivered quantity, insufficient stock, or any other rejection —
leaves the order and every product's stock exactly as they were: all
rejections happen before the deduction loop and the order write. -/
theorem claim_C4 :
    ∀ (st : SysState) (req : DispatchReq) (uid t : Nat) (e : DispatchErr),
      (dispatchOrder st req uid t).error = some e →
      (dispatchOrder st req uid t).order = st.order ∧
      (dispatchOrder st req uid t).stock = st.stock := by
  intro st req uid t e h
  unfold dispatchOrder at h ⊢
  cases hc : dispatchCore st req uid t with
  | error e2 => exact ⟨rfl, rfl⟩
  | ok x =>
    obtain ⟨o2, db2, ups⟩ := x
    rw [hc] at h
    exact Option.noConfusion h

/-- Witness for C4: a dispatch without a delivery partner is rejected and
leaves the order and the stock untouched. -/
theorem claim_C4_witness :
    (dispatchOrder ⟨invoiceOrder, dbAB⟩ noPartnerReq 1 2).error
      = some DispatchErr.missingDeliveryPartner ∧
    (dispatchOrder ⟨invoiceOrder, dbAB⟩ noPartnerReq 1 2).order = invoiceOrder ∧
    (dispatchOrder ⟨invoiceOrder, dbAB⟩ noPartnerReq 1 2).stock = dbAB :=
  ⟨rfl,
   (claim_C4 ⟨invoiceOrder, dbAB⟩ noPartnerReq 1 2 DispatchErr.missingDeliveryPartner rfl).1,
   (claim_C4 ⟨invoiceOrder, dbAB⟩ noPartnerReq 1 2 DispatchErr.missingDeliveryPartner rfl).2⟩

/-! ## Claim C10: the complete command's frame -/

/-- C10: when the complete command succeeds, only the per-item delivery
bookkeeping, the isPartialDelivery flag and product stock change: the result
order is the input order with just `orderItems` and `isPartialDelivery`
replaced, every item keeps its static fields, the status stays Dispatched,
and no statusHistory entry is appended. -/
theorem claim_C10 :
    ∀ (st : SysState),
      (completeOrder st).error = none →
      (completeOrder st).order =
        { st.order with
          orderItems := (completeOrder st).order.orderItems
          isPartialDelivery := false } ∧
      (completeOrder st).order.orderItems.map itemStatic
        = st.order.orderItems.map itemStatic ∧
      (completeOrder st).order.orderStatus = "Dispatched" ∧
      (completeOrder st).order.statusHistory = st.order.statusHistory := by
  intro st herr
  unfold completeOrder at herr ⊢
  cases hc : completeCore st with
  | error e => rw [hc] at herr; simp at herr
  | ok x =>
    obtain ⟨o2, db2, ups⟩ := x
    obtain ⟨items2, ups2, hproc, hdisp, hpart, hx⟩ := completeCore_ok hc
    have ho2 : o2 = { st.order with orderItems := items2, isPartialDelivery := false } :=
      congrArg (fun y => y.1) hx
    refine ⟨?_, ?_, ?_, ?_⟩
    · show o2 = { st.order with orderItems := o2.orderItems, isPartialDelivery := false }
      rw [ho2]
    · show o2.orderItems.map itemStatic = st.order.orderItems.map itemStatic
      rw [ho2]
      exact processCompleteItems_static st.order.orderItems st.stock (items2, ups2) hproc
    · show o2.orderStatus = "Dispatched"
      rw [ho2]
      exact hdisp
    · show o2.statusHistory = st.order.statusHistory
      rw [ho2]

/-- Witness for C10: completing a concrete partially dispatched order. -/
theorem claim_C10_witness :
    (completeOrder ⟨partialDispatchedOrder, dbAB⟩).error = none ∧
    (completeOrder ⟨partialDispatchedOrder, dbAB⟩).order =
      { partialDispatchedOrder with
        orderItems := (completeOrder ⟨partialDispatchedOrder, dbAB⟩).order.orderItems
        isPartialDelivery := false } ∧
    (completeOrder ⟨partialDispatchedOrder, dbAB⟩).order.statusHistory
      = partialDispatchedOrder.statusHistory :=
  ⟨rfl, (claim_C10 ⟨partialDispatchedOrder, dbAB⟩ rfl).1,
   (claim_C10 ⟨partialDispatchedOrder, dbAB⟩ rfl).2.2.2⟩

/-! ## Claim C6: cancellation -/

theorem stockAt_restoreOrderStock {db : ProductDb} (items : List OrderItem)
    {pid : Nat} {s : Int} (hnn : allNonneg db) (hq : ∀ i ∈ items, 0 ≤ i.qty)
    (hs : stockAt db pid = some s) :
    stockAt (restoreOrderStock db items) pid = some (s + itemQtySum items pid) := by
  unfold restoreOrderStock
  cases items with
  | nil => simpa [itemQtySum] using hs
  | cons a l =>
    have hemp : ((a :: l).isEmpty) = false := rfl
    rw [hemp]
    simp only [Bool.false_eq_true, if_false]
    exact stockAt_updateProductStock_increase (a :: l) db pid s hnn hq hs

/-- C6: the cancel command succeeds exactly when the order is not already
cancelled and not Dispatched; a success restores every committed item
quantity to stock, sets `status = cancelled` and `orderStatus = Cancelled`,
records the canceller and the time, and defaults the reason when none is
supplied; each rejected case returns its descriptive error with the order and
the stock untouched. -/
theorem claim_C6 :
    ∀ (st : SysState) (req : CancelReq) (userName : String) (t : Nat),
      ((cancelOrder st req userName t).error = none ↔
        st.order.status ≠ "cancelled" ∧ st.order.orderStatus ≠ "Dispatched") ∧
      (st.order.status = "cancelled" →
        cancelOrder st req userName t = ⟨some .alreadyCancelled, st.order, st.stock, []⟩) ∧
      (st.order.status ≠ "cancelled" → st.order.orderStatus = "Dispatched" →
        cancelOrder st req userName t = ⟨some .cannotCancelDispatched, st.order, st.stock, []⟩) ∧
      ((cancelOrder st req userName t).error = none →
        (cancelOrder st req userName t).order = cancelledOrderOf st.order req userName t) ∧
      (req.reason = none → cancelReasonOf req = "Cancelled by admin") ∧
      (allNonneg st.stock → (∀ i ∈ st.order.orderItems, 0 ≤ i.qty) →
        (cancelOrder st req userName t).error = none →
        ∀ (pid : Nat) (s : Int), stockAt st.stock pid = some s →
          stockAt (cancelOrder st req userName t).stock pid
            = some (s + itemQtySum st.order.orderItems pid)) := by
  intro st req userName t
  by_cases hcan : st.order.status = "cancelled"
  · refine ⟨?_, ?_, ?_, ?_, ?_, ?_⟩
    · rw [cancelOrder, if_pos hcan]
      simp [hcan]
    · intro _; rw [cancelOrder, if_pos hcan]
    · intro hncan _; exact absurd hcan hncan
    · intro herr; rw [cancelOrder, if_pos hcan] at herr; exact Option.noConfusion herr
    · intro hr; rw [cancelReasonOf, hr]
    · intro _ _ herr; rw [cancelOrder, if_pos hcan] at herr; exact Option.noConfusion herr
  · by_cases hdisp : st.order.orderStatus = "Dispatched"
    · refine ⟨?_, ?_, ?_, ?_, ?_, ?_⟩
      · rw [cancelOrder, if_neg hcan, if_pos hdisp]
        simp [hdisp]
      · intro hc; exact absurd hc hcan
      · intro _ _; rw [cancelOrder, if_neg hcan, if_pos hdisp]
      · intro herr; rw [cancelOrder, if_neg hcan, if_pos hdisp] at herr
        exact Option.noConfusion herr
      · intro hr; rw [cancelReasonOf, hr]
      · intro _ _ herr; rw [cancelOrder, if_neg hcan, if_pos hdisp] at herr
        exact Option.noConfusion herr
    · refine ⟨?_, ?_, ?_, ?_, ?_, ?_⟩
      · rw [cancelOrder, if_neg hcan, if_neg hdisp]
        simp [hcan, hdisp]
      · intro hc; exact absurd hc hcan
      · intro _ hd; exact absurd hd hdisp
      · intro _; rw [cancelOrder, if_neg hcan, if_neg hdisp]
      · intro hr; rw [cancelReasonOf, hr]
      · intro hnn hq _ pid s hs
        rw [cancelOrder, if_neg hcan, if_neg hdisp]
        exact stockAt_restoreOrderStock st.order.orderItems hnn hq hs

/-- Witness for C6: cancelling a DC order holding A×3 and B×2 against stock
{A:10, B:10} with no reason supplied. -/
theorem claim_C6_witness :
    (cancelOrder ⟨cancellableOrder, dbAB⟩ ⟨none⟩ "Admin" 9).error = none ∧
    (cancelOrder ⟨cancellableOrder, dbAB⟩ ⟨none⟩ "Admin" 9).order
      = cancelledOrderOf cancellableOrder ⟨none⟩ "Admin" 9 ∧
    cancelReasonOf ⟨none⟩ = "Cancelled by admin" ∧
    stockAt (cancelOrder ⟨cancellableOrder, dbAB⟩ ⟨none⟩ "Admin" 9).stock 1
      = some (10 + itemQtySum cancellableOrder.orderItems 1) :=
  ⟨rfl,
   (claim_C6 ⟨cancellableOrder, dbAB⟩ ⟨none⟩ "Admin" 9).2.2.2.1 rfl,
   (claim_C6 ⟨cancellableOrder, dbAB⟩ ⟨none⟩ "Admin" 9).2.2.2.2.1 rfl,
   (claim_C6 ⟨cancellableOrder, dbAB⟩ ⟨none⟩ "Admin" 9).2.2.2.2.2
     (allNonneg_dbOf _ (by decide)) (by decide) rfl 1 10 (by decide)⟩

/-! ## Claim C7: creation performs no stock movement; deletion credits -/

/-- C7 (amended): under the notificationService.js lineage the creation
handler performs no stock movement at all (the collection it returns is the
one it was given), while deletion credits every item quantity back; so create
followed by delete does not round-trip the stock — it increases each product
by the ordered quantity ({A:13, B:12} in the scenario, not {A:10, B:10}). -/
theorem claim_C7 :
    (∀ (db : ProductDb) (store : List (List Char)) (req : CreateReq)
        (creatorName : String) (now : Nat),
        (createOrderNS db store req creatorName now).2 = db) ∧
    (∀ (db : ProductDb) (o : Order),
        allNonneg db → (∀ i ∈ o.orderItems, 0 ≤ i.qty) →
        ∀ (pid : Nat) (s : Int), stockAt db pid = some s →
          stockAt (deleteOrderNS db o) pid = some (s + itemQtySum o.orderItems pid)) := by
  constructor
  · intro db store req creatorName now
    unfold createOrderNS
    split
    · rfl
    · split
      · rfl
      · rfl
  · intro db o hnn hq pid s hs
    unfold deleteOrderNS
    exact stockAt_restoreOrderStock o.orderItems hnn hq hs

/-- Witness for C7 (amended): the round-trip scenario concretely. -/
theorem claim_C7_witness :
    (createOrderNS dbAB [] createReqRT "Uma" 0).2 = dbAB ∧
    stockAt (deleteOrderNS dbAB rtOrder) 1
      = some (10 + itemQtySum rtOrder.orderItems 1) :=
  ⟨claim_C7.1 dbAB [] createReqRT "Uma" 0,
   claim_C7.2 dbAB rtOrder (allNonneg_dbOf _ (by decide)) (by decide) 1 10 (by decide)⟩

/-- Counterexample for C7 as stated: creating the order [A×3, B×2] against
{A:10, B:10} leaves stock at {A:10, B:10} (not the claimed {A:7, B:8}), and
deleting it then yields {A:13, B:12} (not the claimed {A:10, B:10}): create
followed by delete is not a stock round-trip in this code. -/
theorem claim_C7_counterexample :
    stockAt (createOrderNS dbAB [] createReqRT "Uma" 0).2 1 = some 10 ∧
    stockAt (createOrderNS dbAB [] createReqRT "Uma" 0).2 2 = some 10 ∧
    some (10 : Int) ≠ some (7 : Int) ∧
    stockAt (deleteOrderNS dbAB rtOrder) 1 = some 13 ∧
    stockAt (deleteOrderNS dbAB rtOrder) 2 = some 12 ∧
    some (13 : Int) ≠ some (10 : Int) := by
  decide

/-! ## Claim C1: the status transition tables -/

theorem putOrderMain_gate (db : ProductDb) (o : Order) (req : PutReq) (uid t : Nat)
    (s : String) (h : reqStatusTruthy req = some s) (hneq : s ≠ o.orderStatus) :
    ((putOrderMain db o req uid t).1 = none → s ∈ validTransitionsStrict o.orderStatus) ∧
    (s ∉ validTransitionsStrict o.orderStatus →
      putOrderMain db o req uid t
        = (some (.invalidTransition o.orderStatus s (validTransitionsStrict o.orderStatus)), o)) := by
  constructor
  · intro herr
    by_cases hmem : s ∈ validTransitionsStrict o.orderStatus
    · exact hmem
    · exfalso
      unfold putOrderMain at herr
      simp only [h] at herr
      rw [if_neg hneq, if_neg hmem] at herr
      exact Option.noConfusion herr
  · intro hmem
    unfold putOrderMain
    simp only [h]
    rw [if_neg hneq, if_neg hmem]

theorem putOrderLegacy_gate (o : Order) (req : PutReq) (uid t : Nat)
    (s : String) (h : reqStatusTruthy req = some s) (hneq : s ≠ o.orderStatus) :
    ((putOrderLegacy o req uid t).1 = none → s ∈ validTransitionsStrict o.orderStatus) ∧
    (s ∉ validTransitionsStrict o.orderStatus →
      putOrderLegacy o req uid t
        = (some (.invalidTransition o.orderStatus s (validTransitionsStrict o.orderStatus)), o)) := by
  constructor
  · intro herr
    by_cases hmem : s ∈ validTransitionsStrict o.orderStatus
    · exact hmem
    · exfalso
      unfold putOrderLegacy at herr
      simp only [h] at herr
      rw [if_neg hneq, if_neg hmem] at herr
      exact Option.noConfusion herr
  · intro hmem
    unfold putOrderLegacy
    simp only [h]
    rw [if_neg hneq, if_neg hmem]

theorem nsGate_reject (db : ProductDb) (o : Order) (req : PutReq)
    (s : String) (h : reqStatusTruthy req = some s) (hneq : s ≠ o.orderStatus)
    (hmem : s ∉ validTransitionsPermissive o.orderStatus) :
    nsGate db o req
      = .error (.invalidTransition o.orderStatus s (validTransitionsPermissive o.orderStatus)) := by
  unfold nsGate
  simp only [h]
  rw [if_neg hneq, if_neg hmem]

theorem putOrderNS_gate (db : ProductDb) (o : Order) (req : PutReq) (uid t : Nat)
    (s : String) (h : reqStatusTruthy req = some s) (hneq : s ≠ o.orderStatus) :
    ((putOrderNS db o req uid t).1 = none → s ∈ validTransitionsPermissive o.orderStatus) ∧
    (s ∉ validTransitionsPermissive o.orderStatus →
      putOrderNS db o req uid t
        = (some (.invalidTransition o.orderStatus s (validTransitionsPermissive o.orderStatus)),
           o, db)) := by
  constructor
  · intro herr
    by_cases hmem : s ∈ validTransitionsPermissive o.orderStatus
    · exact hmem
    · exfalso
      unfold putOrderNS at herr
      rw [nsGate_reject db o req s h hneq hmem] at herr
      exact Option.noConfusion herr
  · intro hmem
    unfold putOrderNS
    rw [nsGate_reject db o req s h hneq hmem]

/-- C1 (amended): in all three router lineages, a requested change of
`orderStatus` to a truthy (non-empty) status is accepted only when the
lineage's transition table allows it from the current status (strict table
for routes/orders.js and the legacy router, permissive table — which adds
DC→Dispatched — for the notificationService.js router); any truthy requested
status outside the table is rejected with a validation error carrying the
current status, the requested status and the allowed set, leaving the order
(and, in the stock-moving lineage, the product collection) unchanged.  A
requested status equal to the empty string, however, bypasses the validation
(the handlers test the field for JavaScript truthiness) and is written
through unchecked — see the counterexample. -/
theorem claim_C1 :
    ∀ (db : ProductDb) (o : Order) (req : PutReq) (uid t : Nat) (s : String),
      reqStatusTruthy req = some s → s ≠ o.orderStatus →
      (((putOrderMain db o req uid t).1 = none → s ∈ validTransitionsStrict o.orderStatus) ∧
       (s ∉ validTransitionsStrict o.orderStatus →
         putOrderMain db o req uid t
           = (some (.invalidTransition o.orderStatus s (validTransitionsStrict o.orderStatus)),
              o))) ∧
      (((putOrderLegacy o req uid t).1 = none → s ∈ validTransitionsStrict o.orderStatus) ∧
       (s ∉ validTransitionsStrict o.orderStatus →
         putOrderLegacy o req uid t
           = (some (.invalidTransition o.orderStatus s (validTransitionsStrict o.orderStatus)),
              o))) ∧
      (((putOrderNS db o req uid t).1 = none → s ∈ validTransitionsPermissive o.orderStatus) ∧
       (s ∉ validTransitionsPermissive o.orderStatus →
         putOrderNS db o req uid t
           = (some (.invalidTransition o.orderStatus s (validTransitionsPermissive o.orderStatus)),
              o, db))) :=
  fun db o req uid t s h hneq =>
    ⟨putOrderMain_gate db o req uid t s h hneq,
     putOrderLegacy_gate o req uid t s h hneq,
     putOrderNS_gate db o req uid t s h hneq⟩

/-- Witness for C1: asking a Pending order to jump straight to Invoice is
rejected by all three handlers with the error naming Pending, Invoice and the
allowed set, and the order is returned unchanged. -/
theorem claim_C1_witness :
    reqStatusTruthy pendingToInvoiceReq = some "Invoice" ∧
    putOrderMain dbEmpty baseOrder pendingToInvoiceReq 1 2
      = (some (.invalidTransition "Pending" "Invoice" ["DC"]), baseOrder) ∧
    putOrderLegacy baseOrder pendingToInvoiceReq 1 2
      = (some (.invalidTransition "Pending" "Invoice" ["DC"]), baseOrder) ∧
    putOrderNS dbEmpty baseOrder pendingToInvoiceReq 1 2
      = (some (.invalidTransition "Pending" "Invoice" ["DC"]), baseOrder, dbEmpty) :=
  ⟨rfl,
   (claim_C1 dbEmpty baseOrder pendingToInvoiceReq 1 2 "Invoice" rfl (by decide)).1.2 (by decide),
   (claim_C1 dbEmpty baseOrder pendingToInvoiceReq 1 2 "Invoice" rfl (by decide)).2.1.2 (by decide),
   (claim_C1 dbEmpty baseOrder pendingToInvoiceReq 1 2 "Invoice" rfl (by decide)).2.2.2 (by decide)⟩

/-- Counterexample for C1 as stated: a request whose `orderStatus` is the
empty string is falsy in JavaScript, so routes/orders.js PUT skips the
transition validation entirely and `findOneAndUpdate` writes the empty
status even on a Dispatched (terminal) order: the request is accepted (no
error), the stored status changes to a value outside every allowed set, and
no validation error is produced. -/
theorem claim_C1_counterexample :
    (putOrderMain dbEmpty dispatchedOrder emptyStatusReq 1 2).1 = none ∧
    (putOrderMain dbEmpty dispatchedOrder emptyStatusReq 1 2).2.orderStatus = "" ∧
    dispatchedOrder.orderStatus = "Dispatched" ∧
    "" ∉ validTransitionsStrict "Dispatched" := by
  refine ⟨rfl, rfl, rfl, by decide⟩

/-! ## Claim C5: status history bookkeeping -/

theorem reqStatusTruthy_some {req : PutReq} {s : String}
    (h : reqStatusTruthy req = some s) : req.orderStatus = some s ∧ s ≠ "" := by
  unfold reqStatusTruthy at h
  cases hro : req.orderStatus with
  | none => rw [hro] at h; cases h
  | some r =>
    rw [hro] at h
    dsimp only at h
    by_cases hr : r = ""
    · rw [if_pos hr] at h; cases h
    · rw [if_neg hr] at h
      cases h
      exact ⟨rfl, hr⟩

theorem applyBodyMain_history_changing {db : ProductDb} {o : Order} {req : PutReq}
    {uid t : Nat} {s : String} (h : reqStatusTruthy req = some s)
    (hneq : s ≠ o.orderStatus) :
    (applyBodyMain db o req uid t).statusHistory
      = o.statusHistory ++ [⟨s, some uid, t⟩] := by
  obtain ⟨hro, _⟩ := reqStatusTruthy_some h
  unfold applyBodyMain
  simp only [h, hro]
  simp [hneq]

theorem applyBodyMain_history_same {db : ProductDb} {o : Order} {req : PutReq}
    {uid t : Nat}
    (h : match reqStatusTruthy req with
         | some s => s = o.orderStatus
         | none => True) :
    (applyBodyMain db o req uid t).statusHistory = o.statusHistory := by
  unfold applyBodyMain
  cases hrt : reqStatusTruthy req with
  | none => simp [hrt]
  | some s =>
    rw [hrt] at h
    simp [hrt, h]

/-- C5 (amended): each accepted status change after creation appends exactly
one statusHistory entry — the update route pushes one entry for a truthy,
different requested status and none otherwise, and the dispatch route pushes
exactly one Dispatched entry — but order creation records the initial status
twice: the handler initializes `statusHistory` with one explicit entry and
the model's pre('save') middleware, which fires on the newly created
document, pushes a second identical one.  So `statusHistory.length` equals
the number of accepted status changes counting the initial status, plus one.
Entries carry the caller-supplied timestamps, so the history stays in
non-decreasing timestamp order whenever each new entry's timestamp is at
least those already recorded. -/
theorem claim_C5 :
    (∀ (db : ProductDb) (store : List (List Char)) (req : CreateReq) (uid : Nat)
        (creatorName : String) (t : Nat) (o : Order),
        createOrderMain db store req uid creatorName t = .ok o →
        o.statusHistory.length = 2 ∧
        (∀ e ∈ o.statusHistory, e.status = o.orderStatus ∧ e.updatedAt = t) ∧
        histSorted o.statusHistory) ∧
    (∀ (db : ProductDb) (o : Order) (req : PutReq) (uid t : Nat) (s : String),
        reqStatusTruthy req = some s → s ≠ o.orderStatus →
        (putOrderMain db o req uid t).1 = none →
        (putOrderMain db o req uid t).2.statusHistory
          = o.statusHistory ++ [⟨s, some uid, t⟩]) ∧
    (∀ (db : ProductDb) (o : Order) (req : PutReq) (uid t : Nat),
        (match reqStatusTruthy req with
         | some s => s = o.orderStatus
         | none => True) →
        (putOrderMain db o req uid t).2.statusHistory = o.statusHistory) ∧
    (∀ (st : SysState) (req : DispatchReq) (uid t : Nat),
        (dispatchOrder st req uid t).error = none →
        (dispatchOrder st req uid t).order.statusHistory
          = st.order.statusHistory ++ [⟨"Dispatched", some uid, t⟩]) ∧
    (∀ (l : List HistEntry) (e : HistEntry),
        histSorted l → (∀ x ∈ l, x.updatedAt ≤ e.updatedAt) →
        histSorted (l ++ [e])) := by
  refine ⟨?_, ?_, ?_, ?_, ?_⟩
  · intro db store req uid creatorName t o h
    unfold createOrderMain at h
    split at h
    · cases h
    · split at h
      · cases h
      · split at h
        · cases h
        · rename_i s hsome
          split at h
          · rename_i hmem
            have hne : s ≠ "" := by
              intro he
              rw [he] at hmem
              exact absurd hmem (by decide)
            cases h
            refine ⟨by simp [preSaveHook], ?_, ?_⟩
            · intro e he
              simp only [preSaveHook, if_pos rfl] at he ⊢
              rcases List.mem_append.mp he with h1 | h1
              · rcases List.mem_singleton.mp h1 with rfl
                exact ⟨by simp [if_neg hne], rfl⟩
              · rcases List.mem_singleton.mp h1 with rfl
                exact ⟨rfl, rfl⟩
            · simp [histSorted, preSaveHook, List.pairwise_append]
          · cases h
  · intro db o req uid t s h hneq herr
    unfold putOrderMain at herr ⊢
    simp only [h] at herr ⊢
    rw [if_neg hneq] at herr ⊢
    by_cases hmem : s ∈ validTransitionsStrict o.orderStatus
    · rw [if_pos hmem] at herr ⊢
      by_cases hdisp : s = "Dispatched"
      · rw [if_pos hdisp] at herr ⊢
        by_cases hpart : strFalsy req.deliveryPartner
        · rw [if_pos hpart] at herr
          exact Option.noConfusion herr
        · rw [if_neg hpart]
          exact applyBodyMain_history_changing h hneq
      · rw [if_neg hdisp]
        exact applyBodyMain_history_changing h hneq
    · rw [if_neg hmem] at herr
      exact Option.noConfusion herr
  · intro db o req uid t h
    unfold putOrderMain
    cases hrt : reqStatusTruthy req with
    | none =>
      simp only [hrt]
      exact applyBodyMain_history_same (by rw [hrt]; trivial)
    | some s =>
      rw [hrt] at h
      simp only [hrt]
      rw [if_pos h]
      exact applyBodyMain_history_same (by rw [hrt]; exact h)
  · intro st req uid t herr
    unfold dispatchOrder at herr ⊢
    cases hc : dispatchCore st req uid t with
    | error e => rw [hc] at herr; simp at herr
    | ok x =>
      obtain ⟨o2, db2, ups⟩ := x
      obtain ⟨dis, items2, ups2, isPart, hdis, hproc, hx⟩ := dispatchCore_ok hc
      have ho2 : o2 = dispatchSuccessOrder st.order req uid t items2 isPart :=
        congrArg (fun y => y.1) hx
      show o2.statusHistory = _
      rw [ho2]
      rfl
  · intro l e hs hb
    simp only [histSorted, List.pairwise_append] at hs ⊢
    exact ⟨hs, by simp, by simpa using hb⟩

/-- Witness for C5: an accepted Pending→DC update on an order with an empty
history appends exactly the one DC entry. -/
theorem claim_C5_witness :
    reqStatusTruthy pendingToDCReq = some "DC" ∧
    (putOrderMain dbEmpty baseOrder pendingToDCReq 1 2).1 = none ∧
    (putOrderMain dbEmpty baseOrder pendingToDCReq 1 2).2.statusHistory
      = baseOrder.statusHistory ++ [⟨"DC", some 1, 2⟩] :=
  ⟨rfl, rfl,
   claim_C5.2.1 dbEmpty baseOrder pendingToDCReq 1 2 "DC" rfl (by decide) rfl⟩

/-- Counterexample for C5 as stated: creating an order (one accepted initial
status) yields a statusHistory of length 2, not 1 — the explicit initial
entry plus the one the pre('save') middleware pushes on the new document. -/
theorem claim_C5_counterexample :
    createOrderMain dbAB [] createReqRT 7 "Uma" 5 = .ok mainCreated ∧
    mainCreated.statusHistory.length = 2 ∧ (2 : Nat) ≠ 1 := by
  refine ⟨rfl, by decide, by decide⟩

/-! ## Claim C8: the order identifier generator -/

theorem lexLt_irrefl : ∀ l : List Char, lexLt l l = false := by
  intro l
  induction l with
  | nil => rfl
  | cons a as ih =>
    unfold lexLt
    simp only [Nat.lt_irrefl, if_false]
    exact ih

theorem lexLt_append_left : ∀ (p x y : List Char), lexLt (p ++ x) (p ++ y) = lexLt x y := by
  intro p
  induction p with
  | nil => intro x y; rfl
  | cons c cs ih =>
    intro x y
    simp only [List.cons_append]
    show (if c.toNat < c.toNat then true
          else if c.toNat < c.toNat then false
          else lexLt (cs ++ x) (cs ++ y)) = lexLt x y
    simp only [Nat.lt_irrefl, if_false]
    exact ih x y

set_option maxRecDepth 10000 in
theorem pad3_eq : ∀ n, n < 1000 → padStart3 (Nat.toDigits 10 n) = pad3 n := by decide

theorem char_ofNat_toNat : ∀ x, x < 10 → (Char.ofNat (48 + x)).toNat = 48 + x := by decide

theorem lexLt_pad3 {a b : Nat} (ha : a < 1000) (hb : b < 1000) :
    (lexLt (pad3 a) (pad3 b) = true) ↔ a < b := by
  have h2a : a / 100 < 10 := by omega
  have h1a : a / 10 % 10 < 10 := by omega
  have h0a : a % 10 < 10 := by omega
  have h2b : b / 100 < 10 := by omega
  have h1b : b / 10 % 10 < 10 := by omega
  have h0b : b % 10 < 10 := by omega
  simp only [pad3, lexLt]
  rw [char_ofNat_toNat _ h2a, char_ofNat_toNat _ h1a, char_ofNat_toNat _ h0a,
      char_ofNat_toNat _ h2b, char_ofNat_toNat _ h1b, char_ofNat_toNat _ h0b]
  split_ifs <;> simp <;> omega

theorem lexLt_numToId {a b : Nat} (ha : a < 1000) (hb : b < 1000) :
    (lexLt (numToId a) (numToId b) = true) ↔ a < b := by
  unfold numToId
  rw [lexLt_append_left, pad3_eq a ha, pad3_eq b hb]
  exact lexLt_pad3 ha hb

set_option maxRecDepth 10000 in
theorem parseSuffix_numToId : ∀ n, n < 1001 → parseSuffix (numToId n) = some n := by decide

theorem numToId_length_lt1000 : ∀ n, n < 1000 → (numToId n).length = 7 := by
  intro n hn
  unfold numToId
  rw [pad3_eq n hn]
  rfl

theorem numToId_inj : ∀ a b, a ≤ 1000 → b ≤ 1000 → numToId a = numToId b → a = b := by
  intro a b ha hb heq
  by_cases ha9 : a < 1000
  · by_cases hb9 : b < 1000
    · by_contra hne
      rcases Nat.lt_or_ge a b with hlt | hge
      · have hl := (lexLt_numToId ha9 hb9).mpr hlt
        rw [heq, lexLt_irrefl] at hl
        cases hl
      · have hlt : b < a := by omega
        have hl := (lexLt_numToId hb9 ha9).mpr hlt
        rw [heq, lexLt_irrefl] at hl
        cases hl
    · have hb1000 : b = 1000 := by omega
      subst hb1000
      have h7 : (numToId a).length = 7 := numToId_length_lt1000 a ha9
      rw [heq] at h7
      have h8 : (numToId 1000).length = 8 := by decide
      omega
  · have ha1000 : a = 1000 := by omega
    subst ha1000
    by_cases hb9 : b < 1000
    · have h7 : (numToId b).length = 7 := numToId_length_lt1000 b hb9
      rw [← heq] at h7
      have h8 : (numToId 1000).length = 8 := by decide
      omega
    · omega

theorem upTo_succ (k : Nat) : upTo (k + 1) = upTo k ++ [numToId (k + 1)] := by
  unfold upTo
  rw [List.range_succ]
  simp

theorem dbMaxOrderId_append_some {store : List (List Char)} {x m : List Char}
    (h : dbMaxOrderId store = some m) :
    dbMaxOrderId (store ++ [x]) = some (if lexLt m x then x else m) := by
  unfold dbMaxOrderId at h ⊢
  rw [List.foldl_append, h]
  show (if lexLt m x then some x else some m) = _
  cases hlt : lexLt m x <;> simp [hlt]

theorem dbMaxOrderId_upTo : ∀ k, 1 ≤ k → k ≤ 999 → dbMaxOrderId (upTo k) = some (numToId k) := by
  intro k
  induction k with
  | zero => intro h _; omega
  | succ n ih =>
    intro _ h999
    by_cases hn : n = 0
    · subst hn
      rw [upTo_succ]
      rfl
    · rw [upTo_succ, dbMaxOrderId_append_some (ih (by omega) (by omega))]
      have hlt : lexLt (numToId n) (numToId (n + 1)) = true :=
        (lexLt_numToId (by omega) (by omega)).mpr (by omega)
      simp [hlt]

theorem generateOrderId_upTo : ∀ k, k ≤ 999 → generateOrderId (upTo k) = numToId (k + 1) := by
  intro k hk
  by_cases h0 : k = 0
  · subst h0
    rfl
  · unfold generateOrderId generateCounter
    rw [dbMaxOrderId_upTo k (by omega) hk]
    dsimp only
    rw [parseSuffix_numToId k (by omega)]

theorem genStore_eq_upTo : ∀ k, k ≤ 1000 → genStore k = upTo k := by
  intro k
  induction k with
  | zero => intro _; rfl
  | succ n ih =>
    intro h
    show genStore n ++ [generateOrderId (genStore n)] = upTo (n + 1)
    rw [ih (by omega), generateOrderId_upTo n (by omega), upTo_succ]

theorem upTo_nodup : ∀ k, k ≤ 1000 → (upTo k).Nodup := by
  intro k hk
  unfold upTo
  refine List.Nodup.map_on ?_ (List.nodup_range k)
  intro x hx y hy heq
  have hx1000 : x + 1 ≤ 1000 := by
    have := List.mem_range.mp hx
    omega
  have hy1000 : y + 1 ≤ 1000 := by
    have := List.mem_range.mp hy
    omega
  have := numToId_inj (x + 1) (y + 1) hx1000 hy1000 heq
  omega

/-- C8 (amended): the generator reads the stored id greatest in lexicographic
order, parses the numeric suffix of the PREFIX-NNN form, increments it
(defaulting to 1 when no order exists or the suffix does not parse) and
zero-pads to at least three digits; generating N identifiers sequentially
from an empty store yields ORD-001 … ORD-N zero-padded, with no gaps or
repeats, for every N up to 1000.  At N = 1001 the sequence repeats, because
the lexicographic maximum of the store is ORD-999 rather than ORD-1000 — see
the counterexample. -/
theorem claim_C8 : ∀ N, N ≤ 1000 → genStore N = upTo N ∧ (genStore N).Nodup := by
  intro N h
  refine ⟨genStore_eq_upTo N h, ?_⟩
  rw [genStore_eq_upTo N h]
  exact upTo_nodup N h

/-- Witness for C8: three sequential generations yield ORD-001, ORD-002,
ORD-003 with no repeats. -/
theorem claim_C8_witness :
    3 ≤ 1000 ∧ genStore 3 = upTo 3 ∧ (genStore 3).Nodup :=
  ⟨by decide, (claim_C8 3 (by decide)).1, (claim_C8 3 (by decide)).2⟩

/-- Counterexample for C8 as stated ("for every N"): after 1000 sequential
generations the store holds ORD-001 … ORD-999, ORD-1000, whose
lexicographically greatest element is ORD-999 ("9" sorts above "1"); the
1001st generation therefore parses 999 and produces ORD-1000 again — a
repeat, so the run of 1001 identifiers is not duplicate-free. -/
theorem claim_C8_counterexample :
    generateOrderId (genStore 1000) = numToId 1000 ∧
    numToId 1000 ∈ genStore 1000 ∧
    ¬ (genStore 1001).Nodup := by
  have hstore : genStore 1000 = upTo 1000 := genStore_eq_upTo 1000 (by omega)
  have hmax : dbMaxOrderId (upTo 1000) = some (numToId 999) := by
    rw [upTo_succ 999, dbMaxOrderId_append_some (dbMaxOrderId_upTo 999 (by omega) (by omega))]
    have hf : lexLt (numToId 999) (numToId 1000) = false := by decide
    simp [hf]
  have hgen : generateOrderId (upTo 1000) = numToId 1000 := by
    unfold generateOrderId generateCounter
    rw [hmax]
    dsimp only
    rw [parseSuffix_numToId 999 (by omega)]
  have hmem : numToId 1000 ∈ upTo 1000 := by
    unfold upTo
    exact List.mem_map.mpr ⟨999, List.mem_range.mpr (by omega), rfl⟩
  refine ⟨by rw [hstore]; exact hgen, by rw [hstore]; exact hmem, ?_⟩
  intro hnodup
  have h1001 : genStore 1001 = upTo 1000 ++ [numToId 1000] := by
    show genStore 1000 ++ [generateOrderId (genStore 1000)] = _
    rw [hstore, hgen]
  rw [h1001, List.nodup_append] at hnodup
  exact hnodup.2.2 hmem (List.mem_singleton.mpr rfl)

end Sarathi
